import Mathlib

/-!
# Discovery phase of the sync client (`src/libsync/discoveryphase.cpp`)

A shallow embedding of the remote discovery code: the selective-sync black
list lookup, the HTTP status classifier, the normalisation of PROPFIND
property maps into `csync_vio_file_stat_t` records, the single directory
listing job, the rendezvous between the sync thread and the main thread, and
the throttled progress callback.

Text is kept at the character level: a `QString` is the list of its
characters, compared by character value as `QString::operator<` does, and a
C string produced by `strdup(s.toUtf8())` is represented by the `QString` it
was made from.
-/

namespace OCC

/-! ## Strings -/

/-- A `QString`, as the sequence of its characters. -/
abbrev QString := List Char

/-- The order `QString::operator<`: lexicographic on character values, a
proper prefix coming first. -/
def qlt : QString → QString → Bool
  | [], [] => false
  | [], _ :: _ => true
  | _ :: _, [] => false
  | a :: as, b :: bs =>
    if a < b then true else if b < a then false else qlt as bs

/-- The test `QString::startsWith(const QString&)`. -/
def startsWith (s q : QString) : Bool := q.isPrefixOf s

/-- The test `QString::endsWith(QChar)`. -/
def endsWithChar (s : QString) (c : Char) : Bool := s.getLast? == some c

/-- The test `QString::startsWith(QChar)`. -/
def startsWithChar (s : QString) (c : Char) : Bool := s.head? == some c

/-- The test `QString::contains(const QString&)`: the pattern occurs at some
position of the string. -/
def qcontains : QString → QString → Bool
  | [], pat => pat.isEmpty
  | c :: s, pat => pat.isPrefixOf (c :: s) || qcontains s pat

/-! ## Selective sync black list -/

/-- The loop of `std::lower_bound` over the range `[first, first + count)` of
the list: halve the range, move right when the middle element is below the
value. The first argument bounds the number of iterations. -/
def lower_bound_loop : Nat → List QString → QString → Nat → Nat → Nat
  | 0, _, _, first, _ => first
  | fuel + 1, l, value, first, count =>
    if count = 0 then first
    else
      let step := count / 2
      let it := first + step
      if qlt (l.getD it []) value then
        lower_bound_loop fuel l value (it + 1) (count - (step + 1))
      else
        lower_bound_loop fuel l value first step

/-- The call `std::lower_bound(l.begin(), l.end(), value)`, as the index of the
iterator it returns (`l.length` for `end()`). The range shrinks at every
iteration, so `l.length` iterations are enough. -/
def lower_bound (l : List QString) (value : QString) : Nat :=
  lower_bound_loop l.length l value 0 l.length

/-- The method `DiscoveryJob::isInSelectiveSyncBlackList`, with the member
`_selectiveSyncBlackList` as first argument. The `Q_ASSERT` is a no-op in a
release build and is left out. -/
def isInSelectiveSyncBlackList (_selectiveSyncBlackList : List QString)
    (path : QString) : Bool :=
  if _selectiveSyncBlackList.isEmpty then false
  else
    let pathSlash := path ++ ['/']
    let it := lower_bound _selectiveSyncBlackList pathSlash
    if it ≠ _selectiveSyncBlackList.length ∧
        _selectiveSyncBlackList.getD it [] = pathSlash then true
    else if it = 0 then false
    else if startsWith pathSlash (_selectiveSyncBlackList.getD (it - 1) []) then true
    else false

/-- The list is sorted for `QString::operator<`, as `QStringList::sort` leaves it. -/
def SortedBlackList (l : List QString) : Prop :=
  l.Pairwise (fun a b => qlt b a = false)

/-- Every entry of the list ends with the separator. -/
def EndWithSlash (l : List QString) : Prop :=
  ∀ q ∈ l, endsWithChar q '/' = true

/-- The `errno` values the file uses, kept symbolic. `OK` is the value `0`;
the others are the constants of `errno.h` and the csync extensions
`ERRNO_SERVICE_UNAVAILABLE` and `ERRNO_WRONG_CONTENT`, which are pairwise
distinct and different from zero. -/
inductive Errno where
  | OK
  | EPERM
  | ENOENT
  | EIO
  | EAGAIN
  | EACCES
  | EINVAL
  | ENOSPC
  | EFBIG
  | ERRNO_SERVICE_UNAVAILABLE
  | ERRNO_WRONG_CONTENT
  deriving DecidableEq, Repr

/-- The function `get_errno_from_http_errcode`: the `switch` over the status
code, case by case, with its `default`. -/
def get_errno_from_http_errcode (err : Int) : Errno :=
  if err = 200 ∨ err = 201 ∨ err = 202 ∨ err = 203 ∨ err = 204 ∨ err = 205 ∨
      err = 207 ∨ err = 304 then Errno.OK
  else if err = 401 ∨ err = 402 ∨ err = 407 ∨ err = 405 then Errno.EPERM
  else if err = 301 ∨ err = 303 ∨ err = 404 ∨ err = 410 then Errno.ENOENT
  else if err = 408 ∨ err = 504 then Errno.EAGAIN
  else if err = 423 then Errno.EACCES
  else if err = 400 ∨ err = 403 ∨ err = 409 ∨ err = 411 ∨ err = 412 ∨ err = 414 ∨
      err = 415 ∨ err = 424 ∨ err = 501 then Errno.EINVAL
  else if err = 507 then Errno.ENOSPC
  else if err = 206 ∨ err = 300 ∨ err = 302 ∨ err = 305 ∨ err = 306 ∨ err = 307 ∨
      err = 406 ∨ err = 416 ∨ err = 417 ∨ err = 422 ∨ err = 500 ∨ err = 502 ∨
      err = 505 then Errno.EIO
  else if err = 503 then Errno.ERRNO_SERVICE_UNAVAILABLE
  else if err = 413 then Errno.EFBIG
  else Errno.EIO

/-- The part of a `QNetworkReply` the failure handler reads: `error()` (with
`QNetworkReply::NoError` being `0`), the status code attribute converted with
`toInt()`, the content type header and `errorString()`. -/
structure QNetworkReply where
  error : Nat
  httpCode : Int
  contentType : QString
  errorString : QString
  deriving DecidableEq, Repr

/-- The value `QNetworkReply::NoError`. -/
def NoError : Nat := 0

/-- The content type a PROPFIND reply is tested for. -/
def xmlContentType : QString := "application/xml; charset=utf-8".toList

/-- The slot `DiscoverySingleDirectoryJob::lsJobFinishedWithErrorSlot`: the
arguments `(errnoCode, msg)` of the signal `finishedWithError` it emits. -/
def lsJobFinishedWithErrorSlot (r : QNetworkReply) : Errno × QString :=
  let contentType := r.contentType
  let httpCode := r.httpCode
  let msg := r.errorString
  let errnoCode := Errno.OK
  if r.error ≠ NoError then (Errno.EIO, msg)
  else if httpCode ≠ 207 then (get_errno_from_http_errcode httpCode, msg)
  else if ¬ (qcontains contentType xmlContentType = true) then
    (Errno.ERRNO_WRONG_CONTENT, "Server error: PROPFIND reply is not XML formatted!".toList)
  else (errnoCode, msg)

/-! ## File stat records -/

/-- The values of `file_stat->type` the file uses; a new record has the
first one. -/
inductive csync_vio_file_type where
  | CSYNC_VIO_FILE_TYPE_UNKNOWN
  | CSYNC_VIO_FILE_TYPE_REGULAR
  | CSYNC_VIO_FILE_TYPE_DIRECTORY
  deriving DecidableEq, Repr

/-- The bit set `file_stat->fields`, one flag for each
`CSYNC_VIO_FILE_STAT_FIELDS_*` bit the file sets. -/
structure Fields where
  TYPE : Bool := false
  MTIME : Bool := false
  SIZE : Bool := false
  ETAG : Bool := false
  FILE_ID : Bool := false
  DIRECTDOWNLOADURL : Bool := false
  DIRECTDOWNLOADCOOKIES : Bool := false
  PERM : Bool := false
  deriving DecidableEq, Repr

/-- The record `csync_vio_file_stat_t`, restricted to the members the file
writes. Pointer members are `none` while they are `NULL`; the character
buffers `file_id` and `remotePerm` hold the text before their first zero. -/
structure csync_vio_file_stat_t where
  name : Option QString := none
  type : csync_vio_file_type := csync_vio_file_type.CSYNC_VIO_FILE_TYPE_UNKNOWN
  fields : Fields := {}
  mtime : Int := 0
  size : Int := 0
  etag : Option QString := none
  file_id : QString := []
  directDownloadUrl : Option QString := none
  directDownloadCookies : Option QString := none
  remotePerm : QString := []
  deriving DecidableEq, Repr

/-- The constructor `csync_vio_file_stat_new` of csync, which is not among the
sources: it returns a zeroed record, so that no flag is set, the numbers are
0, the pointers are null, the buffers are empty and the type is the first
value of its enumeration, `CSYNC_VIO_FILE_TYPE_UNKNOWN`. -/
def csync_vio_file_stat_new : csync_vio_file_stat_t := {}

/-- Functions and constants the file uses and does not define: the parser of
HTTP dates, the normaliser of etags, `QString::toLongLong` and the size of
the buffer `remotePerm`. -/
structure Externals where
  oc_httpdate_parse : QString → Int
  csync_normalize_etag : QString → QString
  toLongLong : QString → Int
  sizeof_remotePerm : Nat

/-- Modelled from the spec: `csync_vio_file_stat_set_file_id` is not among the
sources; following the mapping of the key `id` to the optional field
`file_id`, it stores the value in `file_id` and marks that field present. -/
def csync_vio_file_stat_set_file_id (file_stat : csync_vio_file_stat_t)
    (value : QString) : csync_vio_file_stat_t :=
  { file_stat with file_id := value,
                   fields := { file_stat.fields with FILE_ID := true } }

/-- A `QMap<QString,QString>`, as the list of its entries in iteration order. -/
abbrev QMap := List (QString × QString)

/-- No key occurs twice, as in every `QMap`. -/
def QMap.UniqueKeys (m : QMap) : Prop := (m.map Prod.fst).Nodup

/-- The test `QMap::contains`. -/
def QMap.containsKey (m : QMap) (key : QString) : Bool :=
  m.any (fun e => e.1 == key)

/-- The lookup `QMap::value`: the value under the key, or the empty string. -/
def QMap.value (m : QMap) (key : QString) : QString :=
  match m.find? (fun e => e.1 == key) with
  | some e => e.2
  | none => []

/-- The body of the loop of `propertyMapToFileStat`, for one entry. -/
def propertyStep (ext : Externals) (file_stat : csync_vio_file_stat_t)
    (entry : QString × QString) : csync_vio_file_stat_t :=
  let property := entry.1
  let value := entry.2
  if property = "resourcetype".toList then
    { file_stat with
      type := if qcontains value "collection".toList then
                csync_vio_file_type.CSYNC_VIO_FILE_TYPE_DIRECTORY
              else csync_vio_file_type.CSYNC_VIO_FILE_TYPE_REGULAR,
      fields := { file_stat.fields with TYPE := true } }
  else if property = "getlastmodified".toList then
    { file_stat with mtime := ext.oc_httpdate_parse value,
                     fields := { file_stat.fields with MTIME := true } }
  else if property = "getcontentlength".toList then
    { file_stat with size := ext.toLongLong value,
                     fields := { file_stat.fields with SIZE := true } }
  else if property = "getetag".toList then
    { file_stat with etag := some (ext.csync_normalize_etag value),
                     fields := { file_stat.fields with ETAG := true } }
  else if property = "id".toList then
    csync_vio_file_stat_set_file_id file_stat value
  else if property = "downloadURL".toList then
    { file_stat with directDownloadUrl := some value,
                     fields := { file_stat.fields with DIRECTDOWNLOADURL := true } }
  else if property = "dDC".toList then
    { file_stat with directDownloadCookies := some value,
                     fields := { file_stat.fields with DIRECTDOWNLOADCOOKIES := true } }
  else if property = "permissions".toList then
    if value.isEmpty then
      { file_stat with remotePerm := ' ' :: file_stat.remotePerm.drop 1,
                       fields := { file_stat.fields with PERM := true } }
    else if value.length < ext.sizeof_remotePerm then
      { file_stat with remotePerm := value.take ext.sizeof_remotePerm,
                       fields := { file_stat.fields with PERM := true } }
    else file_stat
  else file_stat

/-- The function `propertyMapToFileStat`: a new record, updated by every
entry of the map in iteration order. -/
def propertyMapToFileStat (ext : Externals) (map : QMap) : csync_vio_file_stat_t :=
  map.foldl (propertyStep ext) csync_vio_file_stat_new

/-! ## The directory listing job -/

/-- The state of a `DiscoverySingleDirectoryJob`. `requestPath` is the path
`_lsColJob->reply()->request().url().path()` of the request it started. -/
structure DiscoverySingleDirectoryJob where
  _subPath : QString
  requestPath : QString
  _ignoredFirst : Bool := false
  _results : List csync_vio_file_stat_t := []
  deriving DecidableEq, Repr

/-- The signals a `DiscoverySingleDirectoryJob` emits. -/
inductive JobSignal where
  | firstDirectoryPermissions (p : QString)
  | firstDirectoryEtag (e : QString)
  | finishedWithResult (result : List csync_vio_file_stat_t)
  | finishedWithError (csyncErrnoCode : Errno) (msg : QString)
  deriving DecidableEq, Repr

/-- The loop `while (file.endsWith('/')) file.chop(1);`, the first argument
bounding the number of iterations. -/
def chopSlashesLoop : Nat → QString → QString
  | 0, file => file
  | fuel + 1, file =>
    if endsWithChar file '/' then chopSlashesLoop fuel file.dropLast else file

/-- The loop that removes trailing slashes; every iteration shortens the
string, so `file.length` iterations are enough. -/
def chopSlashes (file : QString) : QString := chopSlashesLoop file.length file

/-- The loop `while (file.startsWith('/')) file = file.remove(0, 1);`. -/
def removeLeadingSlashes : QString → QString
  | [] => []
  | c :: rest => if c = '/' then removeLeadingSlashes rest else c :: rest

/-- The name a listing tuple is stored under: the first
`requestPath.length()` characters removed, then trailing and leading slashes. -/
def relativeName (requestPath file : QString) : QString :=
  removeLeadingSlashes (chopSlashes (file.drop requestPath.length))

/-- The slot `DiscoverySingleDirectoryJob::directoryListingIteratedSlot`: the
job after the tuple, and the signals emitted while handling it. -/
def directoryListingIteratedSlot (ext : Externals) (job : DiscoverySingleDirectoryJob)
    (file : QString) (map : QMap) : DiscoverySingleDirectoryJob × List JobSignal :=
  if ¬ (job._ignoredFirst = true) then
    ({ job with _ignoredFirst := true },
      (if map.containsKey "permissions".toList then
        [JobSignal.firstDirectoryPermissions (map.value "permissions".toList)] else []) ++
      (if map.containsKey "getetag".toList then
        [JobSignal.firstDirectoryEtag (map.value "getetag".toList)] else []))
  else
    let file_stat := propertyMapToFileStat ext map
    let file_stat := { file_stat with name := some (relativeName job.requestPath file) }
    ({ job with _results := job._results ++ [file_stat] }, [])

/-- The slot `DiscoverySingleDirectoryJob::lsJobFinishedWithoutErrorSlot`: the
signal it emits. -/
def lsJobFinishedWithoutErrorSlot (job : DiscoverySingleDirectoryJob) : JobSignal :=
  JobSignal.finishedWithResult job._results

/-- The job after a sequence of listing tuples, delivered in order. -/
def listingIterated (ext : Externals) (job : DiscoverySingleDirectoryJob)
    (tuples : List (QString × QMap)) : DiscoverySingleDirectoryJob :=
  tuples.foldl (fun j t => (directoryListingIteratedSlot ext j t.1 t.2).1) job

/-- A listing that ends without error: the job is created for the path, is
given the tuples in order, and emits its results. -/
def runListing (ext : Externals) (subPath requestPath : QString)
    (tuples : List (QString × QMap)) : JobSignal :=
  lsJobFinishedWithoutErrorSlot
    (listingIterated ext { _subPath := subPath, requestPath := requestPath } tuples)

/-! ## The rendezvous between the sync thread and the main thread -/

/-- The object `DiscoveryDirectoryResult` handed from the sync thread to the
main thread and back. The iterator is a position in `list`, `none` while it
is default constructed. -/
structure DiscoveryDirectoryResult where
  path : QString := []
  msg : QString := []
  code : Errno := Errno.OK
  list : List csync_vio_file_stat_t := []
  iterator : Option Nat := none
  deriving DecidableEq, Repr

/-- The state shared by `DiscoveryMainThread` and the waiting `DiscoveryJob`:
the result object allocated by the open hook, whether the member
`_currentDiscoveryDirectoryResult` points at it (`false` for a null pointer),
the map `_directoryContents`, the root permissions of the csync context,
the number of `wakeAll` calls on the wait condition, and whether the signals
of the job `_singleDirJob` are connected to the slots of the bridge. -/
structure DiscoveryMainThread where
  directoryResult : DiscoveryDirectoryResult
  _currentDiscoveryDirectoryResult : Bool
  _directoryContents : List (QString × List csync_vio_file_stat_t) := []
  root_perms : Option QString := none
  wakeAll : Nat := 0
  jobConnected : Bool := true
  deriving DecidableEq, Repr

/-- The first half of `DiscoveryJob::remote_vio_opendir_hook`, up to the wait:
the result object it allocates, with `code = EIO`. -/
def newDirectoryResult : DiscoveryDirectoryResult := { code := Errno.EIO }

/-- The part of `DiscoveryMainThread::doOpendirSlot` that takes the result
object over: the bridge points at it and records the path. -/
def doOpendirSlot (root_perms : Option QString) (fullPath : QString)
    (r : DiscoveryDirectoryResult) : DiscoveryMainThread :=
  { directoryResult := { r with path := fullPath },
    _currentDiscoveryDirectoryResult := true,
    root_perms := root_perms }

/-- The slot `DiscoveryMainThread::singleDirectoryJobResultSlot`. -/
def singleDirectoryJobResultSlot (s : DiscoveryMainThread)
    (result : List csync_vio_file_stat_t) : DiscoveryMainThread :=
  if ¬ (s._currentDiscoveryDirectoryResult = true) then s
  else
    { s with
      _directoryContents := s._directoryContents ++ [(s.directoryResult.path, result)],
      directoryResult :=
        { s.directoryResult with list := result, code := Errno.OK, iterator := some 0 },
      _currentDiscoveryDirectoryResult := false,
      wakeAll := s.wakeAll + 1 }

/-- The slot `DiscoveryMainThread::singleDirectoryJobFinishedWithErrorSlot`. -/
def singleDirectoryJobFinishedWithErrorSlot (s : DiscoveryMainThread)
    (csyncErrnoCode : Errno) (msg : QString) : DiscoveryMainThread :=
  if ¬ (s._currentDiscoveryDirectoryResult = true) then s
  else
    { s with
      directoryResult := { s.directoryResult with code := csyncErrnoCode, msg := msg },
      _currentDiscoveryDirectoryResult := false,
      wakeAll := s.wakeAll + 1 }

/-- The second half of `DiscoveryJob::remote_vio_opendir_hook`, after the
wait: the handle returned (`none` for `NULL`) and the value assigned to
`errno`, if any. -/
def opendirReturn (directoryResult : DiscoveryDirectoryResult) :
    Option DiscoveryDirectoryResult × Option Errno :=
  if directoryResult.code ≠ Errno.OK then (none, some directoryResult.code)
  else (some directoryResult, none)

/-- A call of `DiscoveryJob::remote_vio_opendir_hook` whose listing job is
delivered the reply `r` on its failure handler: the hook allocates the result
object, the bridge takes it over, the job emits `finishedWithError`, the
bridge's slot handles it and the hook returns. -/
def opendirWithFailedJob (root_perms : Option QString) (fullPath : QString)
    (r : QNetworkReply) : Option DiscoveryDirectoryResult × Option Errno :=
  let s := doOpendirSlot root_perms fullPath newDirectoryResult
  let e := lsJobFinishedWithErrorSlot r
  opendirReturn (singleDirectoryJobFinishedWithErrorSlot s e.1 e.2).directoryResult

/-- The slot `DiscoveryMainThread::singleDirectoryJobFirstDirectoryPermissionsSlot`:
the root permissions are set when the pointer is still null. -/
def singleDirectoryJobFirstDirectoryPermissionsSlot (s : DiscoveryMainThread)
    (p : QString) : DiscoveryMainThread :=
  if s.root_perms = none then { s with root_perms := some p } else s

/-- The method `DiscoveryMainThread::abort`. The argument is the result of
`_vioMutex.tryLock()`, that is, whether the mutex was free. The signals of the
job are disconnected from the bridge afterwards (when there is no job,
nothing is connected), and the job is told to abort its request. -/
def abort (s : DiscoveryMainThread) (tryLock : Bool) : DiscoveryMainThread :=
  let s1 :=
    if s._currentDiscoveryDirectoryResult = true then
      if tryLock = true then
        { s with
          directoryResult := { s.directoryResult with code := Errno.EIO },
          _currentDiscoveryDirectoryResult := false,
          wakeAll := s.wakeAll + 1 }
      else s
    else s
  { s1 with jobConnected := false }

/-- The delivery of a signal of the job to the bridge, through the connections
made in `doOpendirSlot`: a signal of a disconnected job reaches no slot, and
`firstDirectoryEtag` is only forwarded as the signal `rootEtag`. -/
def deliverSignal (s : DiscoveryMainThread) : JobSignal → DiscoveryMainThread
  | JobSignal.firstDirectoryPermissions p =>
    if s.jobConnected = true then singleDirectoryJobFirstDirectoryPermissionsSlot s p else s
  | JobSignal.firstDirectoryEtag _ => s
  | JobSignal.finishedWithResult result =>
    if s.jobConnected = true then singleDirectoryJobResultSlot s result else s
  | JobSignal.finishedWithError csyncErrnoCode msg =>
    if s.jobConnected = true then
      singleDirectoryJobFinishedWithErrorSlot s csyncErrnoCode msg
    else s

/-- The events that end a listing, as the bridge sees them: the job emits
`finishedWithResult`, the job emits `finishedWithError`, or `abort()` is
called (with the result of its `tryLock`). -/
inductive TerminalEvent where
  | jobCompleted (result : List csync_vio_file_stat_t)
  | jobFailed (csyncErrnoCode : Errno) (msg : QString)
  | abortCalled (tryLock : Bool)
  deriving DecidableEq, Repr

/-- The bridge after one terminal event. -/
def deliverTerminal (s : DiscoveryMainThread) : TerminalEvent → DiscoveryMainThread
  | TerminalEvent.jobCompleted result => deliverSignal s (JobSignal.finishedWithResult result)
  | TerminalEvent.jobFailed csyncErrnoCode msg =>
    deliverSignal s (JobSignal.finishedWithError csyncErrnoCode msg)
  | TerminalEvent.abortCalled tryLock => abort s tryLock

/-- The bridge after a sequence of terminal events, in order. -/
def deliverTerminals (s : DiscoveryMainThread) (events : List TerminalEvent) :
    DiscoveryMainThread :=
  events.foldl deliverTerminal s

/-- The external `csync_vio_file_stat_copy`: a copy of the record. -/
def csync_vio_file_stat_copy (file_stat : csync_vio_file_stat_t) : csync_vio_file_stat_t :=
  file_stat

/-- The hook `DiscoveryJob::remote_vio_readdir_hook`: the record returned
(`none` for `NULL`) and the result object afterwards. The outer `none` stands
for the undefined behaviour of comparing and dereferencing an iterator that
was never set. -/
def remote_vio_readdir_hook (directoryResult : DiscoveryDirectoryResult) :
    Option (Option csync_vio_file_stat_t × DiscoveryDirectoryResult) :=
  match directoryResult.iterator with
  | none => none
  | some i =>
    if i ≠ directoryResult.list.length then
      match directoryResult.list.get? i with
      | some file_stat =>
        some (some (csync_vio_file_stat_copy file_stat),
              { directoryResult with iterator := some (i + 1) })
      | none => none
    else some (none, directoryResult)

/-- The results of the first `k` calls of `remote_vio_readdir_hook` on a
handle, in order, and the result object after them. -/
def readdirCalls : Nat → DiscoveryDirectoryResult →
    Option (List (Option csync_vio_file_stat_t) × DiscoveryDirectoryResult)
  | 0, d => some ([], d)
  | k + 1, d =>
    match remote_vio_readdir_hook d with
    | none => none
    | some (r, d1) =>
      match readdirCalls k d1 with
      | none => none
      | some (rs, d2) => some (r :: rs, d2)

/-- The signals a job emits while it is given a sequence of listing tuples,
in order. -/
def listingSignals (ext : Externals) :
    DiscoverySingleDirectoryJob → List (QString × QMap) → List JobSignal
  | _, [] => []
  | job, t :: ts =>
    (directoryListingIteratedSlot ext job t.1 t.2).2 ++
      listingSignals ext (directoryListingIteratedSlot ext job t.1 t.2).1 ts

/-- One directory listing of a discovery pass, as the bridge sees it: a new
job for the request path is given the tuples, and every signal it emits on
the way is delivered. A listing is given as (request path, tuples). -/
def deliverListing (ext : Externals) (s : DiscoveryMainThread)
    (listing : QString × List (QString × QMap)) : DiscoveryMainThread :=
  (listingSignals ext { _subPath := listing.1, requestPath := listing.1 } listing.2).foldl
    deliverSignal s

/-- The bridge after a sequence of directory listings. -/
def deliverListings (ext : Externals) (s : DiscoveryMainThread)
    (listings : List (QString × List (QString × QMap))) : DiscoveryMainThread :=
  listings.foldl (deliverListing ext) s

/-! ## The progress callback -/

/-- The call `section('/', -1)` on a string: its last section, which is what
follows its last slash. -/
def lastSection (s : QString) : QString :=
  (s.reverse.takeWhile (fun c => c ≠ '/')).reverse

/-- The method `DiscoveryJob::update_job_update_callback`, for a job that is
not null. The member `lastUpdateProgressCallbackCall` is `none` while the
timer is invalid and holds the clock reading of its last restart otherwise.
`now` is the reading of the clock at the call, in ticks of which `ticksPerMs`
make a millisecond, so that `elapsed()` is `(now - start) / ticksPerMs`. The
result is the timer after the call and the arguments of the signal
`folderDiscovered`, when it is emitted. `QUrl::fromPercentEncoding` is a
parameter. -/
def update_job_update_callback (fromPercentEncoding : QString → QString)
    (ticksPerMs : Nat) (lastUpdateProgressCallbackCall : Option Nat) (now : Nat)
    (isLocal : Bool) (dirUrl : QString) : Option Nat × Option (Bool × QString) :=
  match lastUpdateProgressCallbackCall with
  | none => (some now, some (isLocal, lastSection (fromPercentEncoding dirUrl)))
  | some start =>
    if (now - start) / ticksPerMs < 200 then (some start, none)
    else (some now, some (isLocal, lastSection (fromPercentEncoding dirUrl)))

/-- A sequence of calls of the callback, each given as (clock reading, local,
url): the timer after the calls and the notifications emitted, in order, each
with the clock reading of the call that emitted it. -/
def progressCalls (fromPercentEncoding : QString → QString) (ticksPerMs : Nat) :
    Option Nat → List (Nat × Bool × QString) → Option Nat × List (Nat × Bool × QString)
  | timer, [] => (timer, [])
  | timer, c :: cs =>
    match update_job_update_callback fromPercentEncoding ticksPerMs timer c.1 c.2.1 c.2.2 with
    | (timer1, none) => progressCalls fromPercentEncoding ticksPerMs timer1 cs
    | (timer1, some n) =>
      ((progressCalls fromPercentEncoding ticksPerMs timer1 cs).1,
        (c.1, n) :: (progressCalls fromPercentEncoding ticksPerMs timer1 cs).2)

/-! ## Listings given by their children, and sample inputs -/

/-- The tuple a server sends for a child: the request path of the listed
directory, a slash, the child's name and a number of trailing slashes, with
the child's property map. A child is given as (name, trailing slashes, map). -/
def childTuple (requestPath : QString) (c : QString × Nat × QMap) : QString × QMap :=
  (requestPath ++ ('/' :: c.1) ++ List.replicate c.2.1 '/', c.2.2)

/-- The record a child is expected to be stored as: its property map
normalised, under its name alone. -/
def childRecord (ext : Externals) (c : QString × Nat × QMap) : csync_vio_file_stat_t :=
  { propertyMapToFileStat ext c.2.2 with name := some c.1 }


/-- Sample values for the external functions, used to evaluate the code on
concrete inputs. -/
def sampleExternals : Externals :=
  { oc_httpdate_parse := fun _ => 0,
    csync_normalize_etag := fun e => e,
    toLongLong := fun _ => 10,
    sizeof_remotePerm := 16 }

/-- The value of a string of decimal digits, `none` when the string is empty
or holds another character. -/
def digitsValue : QString → Option Nat
  | [] => none
  | c :: cs =>
    (c :: cs).foldl
      (fun acc d =>
        match acc with
        | none => none
        | some n => if d.isDigit then some (10 * n + (d.toNat - '0'.toNat)) else none)
      (some 0)

/-- Sample values for the external functions in which `toLongLong` reads
unsigned decimal text and gives `0` when the conversion fails, as
`QString::toLongLong` does. -/
def decimalExternals : Externals :=
  { oc_httpdate_parse := fun _ => 0,
    csync_normalize_etag := fun e => e,
    toLongLong := fun v =>
      match digitsValue v with
      | some n => (n : Int)
      | none => 0,
    sizeof_remotePerm := 16 }

/-! ## Theorems: selective sync black list -/

/-- The iterator returned by the loop of `std::lower_bound` stays within the
range it was given. -/
theorem lower_bound_loop_le (fuel : Nat) (l : List QString) (value : QString)
    (first count : Nat) :
    lower_bound_loop fuel l value first count ≤ first + count := by
  induction fuel generalizing first count with
  | zero => simp [lower_bound_loop]
  | succ fuel ih =>
    unfold lower_bound_loop
    by_cases hc : count = 0
    · simp [hc]
    · simp only [hc, if_false]
      have hstep : count / 2 < count := Nat.div_lt_self (Nat.pos_of_ne_zero hc) (by decide)
      split
      · have := ih (first + count / 2 + 1) (count - (count / 2 + 1))
        omega
      · have := ih first (count / 2)
        omega

/-- The iterator returned by `std::lower_bound` is within the list or at its end. -/
theorem lower_bound_le_length (l : List QString) (value : QString) :
    lower_bound l value ≤ l.length := by
  have := lower_bound_loop_le l.length l value 0 l.length
  simpa [lower_bound] using this

/-- An index within the list names one of its entries. -/
theorem getD_mem_of_lt (l : List QString) (i : Nat) (h : i < l.length) :
    l.getD i [] ∈ l := by
  rw [List.getD_eq_getElem l [] h]
  exact List.getElem_mem h

/-- C2: whenever `isInSelectiveSyncBlackList` returns true for a path, some
entry of the black list is a prefix of the path followed by the separator,
whatever the list; and with an empty list it returns false for every path. -/
theorem isInSelectiveSyncBlackList_sound (bl : List QString) (p : QString) :
    (isInSelectiveSyncBlackList bl p = true → ∃ q ∈ bl, q <+: p ++ ['/']) ∧
    isInSelectiveSyncBlackList [] p = false := by
  refine ⟨?_, rfl⟩
  intro h
  unfold isInSelectiveSyncBlackList at h
  have hle := lower_bound_le_length bl (p ++ ['/'])
  split at h
  · exact absurd h (by decide)
  · simp only at h
    split at h
    · rename_i h1
      refine ⟨bl.getD (lower_bound bl (p ++ ['/'])) [], ?_, ?_⟩
      · exact getD_mem_of_lt bl _ (by omega)
      · rw [h1.2]
    · split at h
      · exact absurd h (by decide)
      · rename_i h0
        split at h
        · rename_i hs
          refine ⟨bl.getD (lower_bound bl (p ++ ['/']) - 1) [], ?_, ?_⟩
          · exact getD_mem_of_lt bl _ (by omega)
          · exact List.isPrefixOf_iff_prefix.mp hs
        · exact absurd h (by decide)

/-- Witness for C2: the list `["a/b/"]` and the path `a/b/c`. -/
theorem isInSelectiveSyncBlackList_sound_witness :
    isInSelectiveSyncBlackList ["a/b/".toList] "a/b/c".toList = true ∧
    ∃ q ∈ ["a/b/".toList], q <+: "a/b/c".toList ++ ['/'] :=
  ⟨by decide,
   (isInSelectiveSyncBlackList_sound ["a/b/".toList] "a/b/c".toList).1 (by decide)⟩

/-- C1, the code at the failing input: the list `["a/", "a/b/"]` is sorted and
its entries end with the separator, the path `a/c` has no trailing separator
and the entry `a/` is a prefix of `a/c/`, yet
`isInSelectiveSyncBlackList` returns false: the lower bound is the end of the
list and the only entry inspected is its predecessor `a/b/`. -/
theorem isInSelectiveSyncBlackList_nested_prefix :
    SortedBlackList ["a/".toList, "a/b/".toList] ∧
    EndWithSlash ["a/".toList, "a/b/".toList] ∧
    endsWithChar "a/c".toList '/' = false ∧
    (∃ q ∈ ["a/".toList, "a/b/".toList], q <+: "a/c".toList ++ ['/']) ∧
    lower_bound ["a/".toList, "a/b/".toList] ("a/c".toList ++ ['/']) = 2 ∧
    isInSelectiveSyncBlackList ["a/".toList, "a/b/".toList] "a/c".toList = false := by
  refine ⟨?_, ?_, ?_, ?_, ?_, ?_⟩
  · unfold SortedBlackList; decide
  · unfold EndWithSlash; decide
  · decide
  · exact ⟨"a/".toList, by decide, by decide⟩
  · decide
  · decide

/-! ## Theorems: HTTP status classification -/

/-- C3: `get_errno_from_http_errcode` gives `EPERM` for 401, 402, 405, 407;
`ENOENT` for 301, 303, 404, 410; `EAGAIN` for 408, 504; `EACCES` for 423;
`EINVAL` for 400, 403, 409, 411, 412, 414, 415, 424, 501; `ENOSPC` for 507;
`EFBIG` for 413; `ERRNO_SERVICE_UNAVAILABLE` for 503; and `EIO` for every
other code that is neither a 2xx code nor 304. Being a function on all
integers, it gives every code exactly one value. -/
theorem get_errno_from_http_errcode_table (err : Int) :
    (err ∈ [401, 402, 405, 407] → get_errno_from_http_errcode err = Errno.EPERM) ∧
    (err ∈ [301, 303, 404, 410] → get_errno_from_http_errcode err = Errno.ENOENT) ∧
    (err ∈ [408, 504] → get_errno_from_http_errcode err = Errno.EAGAIN) ∧
    (err = 423 → get_errno_from_http_errcode err = Errno.EACCES) ∧
    (err ∈ [400, 403, 409, 411, 412, 414, 415, 424, 501] →
      get_errno_from_http_errcode err = Errno.EINVAL) ∧
    (err = 507 → get_errno_from_http_errcode err = Errno.ENOSPC) ∧
    (err = 413 → get_errno_from_http_errcode err = Errno.EFBIG) ∧
    (err = 503 → get_errno_from_http_errcode err = Errno.ERRNO_SERVICE_UNAVAILABLE) ∧
    (err ∉ [401, 402, 405, 407, 301, 303, 404, 410, 408, 504, 423, 400, 403, 409,
        411, 412, 414, 415, 424, 501, 507, 413, 503] →
      ¬ (200 ≤ err ∧ err ≤ 299) → err ≠ 304 →
      get_errno_from_http_errcode err = Errno.EIO) := by
  simp only [List.mem_cons, List.mem_singleton, List.not_mem_nil, or_false, not_or]
  refine ⟨?_, ?_, ?_, ?_, ?_, ?_, ?_, ?_, ?_⟩
  · rintro (rfl | rfl | rfl | rfl) <;> rfl
  · rintro (rfl | rfl | rfl | rfl) <;> rfl
  · rintro (rfl | rfl) <;> rfl
  · rintro rfl; rfl
  · rintro (rfl | rfl | rfl | rfl | rfl | rfl | rfl | rfl | rfl) <;> rfl
  · rintro rfl; rfl
  · rintro rfl; rfl
  · rintro rfl; rfl
  · intro h h2 h3
    unfold get_errno_from_http_errcode
    rw [if_neg (by omega), if_neg (by omega), if_neg (by omega), if_neg (by omega),
      if_neg (by omega), if_neg (by omega), if_neg (by omega)]
    by_cases h8 : (err = 206 ∨ err = 300 ∨ err = 302 ∨ err = 305 ∨ err = 306 ∨
        err = 307 ∨ err = 406 ∨ err = 416 ∨ err = 417 ∨ err = 422 ∨ err = 500 ∨
        err = 502 ∨ err = 505)
    · rw [if_pos h8]
    · rw [if_neg h8, if_neg (by omega), if_neg (by omega)]

/-- Witness for C3: the table at one code of every group, and at codes
outside all groups. -/
theorem get_errno_from_http_errcode_table_witness :
    get_errno_from_http_errcode 401 = Errno.EPERM ∧
    get_errno_from_http_errcode 404 = Errno.ENOENT ∧
    get_errno_from_http_errcode 504 = Errno.EAGAIN ∧
    get_errno_from_http_errcode 423 = Errno.EACCES ∧
    get_errno_from_http_errcode 412 = Errno.EINVAL ∧
    get_errno_from_http_errcode 507 = Errno.ENOSPC ∧
    get_errno_from_http_errcode 413 = Errno.EFBIG ∧
    get_errno_from_http_errcode 503 = Errno.ERRNO_SERVICE_UNAVAILABLE ∧
    get_errno_from_http_errcode 100 = Errno.EIO ∧
    get_errno_from_http_errcode 599 = Errno.EIO :=
  ⟨(get_errno_from_http_errcode_table 401).1 (by decide),
   (get_errno_from_http_errcode_table 404).2.1 (by decide),
   (get_errno_from_http_errcode_table 504).2.2.1 (by decide),
   (get_errno_from_http_errcode_table 423).2.2.2.1 (by decide),
   (get_errno_from_http_errcode_table 412).2.2.2.2.1 (by decide),
   (get_errno_from_http_errcode_table 507).2.2.2.2.2.1 (by decide),
   (get_errno_from_http_errcode_table 413).2.2.2.2.2.2.1 (by decide),
   (get_errno_from_http_errcode_table 503).2.2.2.2.2.2.2.1 (by decide),
   (get_errno_from_http_errcode_table 100).2.2.2.2.2.2.2.2 (by decide) (by decide)
     (by decide),
   (get_errno_from_http_errcode_table 599).2.2.2.2.2.2.2.2 (by decide) (by decide)
     (by decide)⟩

/-- C5, counterexample: for a reply with a network error the failure handler
emits `EIO`, which is not the value the classifier gives to 408 and 504. -/
theorem lsJobFinishedWithErrorSlot_network_error_not_EAGAIN :
    (lsJobFinishedWithErrorSlot ⟨1, 0, [], []⟩).1 = Errno.EIO ∧
    (lsJobFinishedWithErrorSlot ⟨1, 0, [], []⟩).1 ≠ get_errno_from_http_errcode 408 ∧
    (lsJobFinishedWithErrorSlot ⟨1, 0, [], []⟩).1 ≠ get_errno_from_http_errcode 504 := by
  decide

/-- C5, amended: when the reply carries a network error, the failure handler
emits `EIO` whatever the status code and the content type, which is the
value the classifier gives by default (to 500, for one), and passes the
reply's error string on. -/
theorem lsJobFinishedWithErrorSlot_network_error (r : QNetworkReply)
    (h : r.error ≠ NoError) :
    (lsJobFinishedWithErrorSlot r).1 = Errno.EIO ∧
    (lsJobFinishedWithErrorSlot r).1 = get_errno_from_http_errcode 500 ∧
    (lsJobFinishedWithErrorSlot r).2 = r.errorString := by
  unfold lsJobFinishedWithErrorSlot
  simp only [if_pos h]
  refine ⟨trivial, ?_, trivial⟩
  decide

/-- Witness for C5, amended: a reply with a network error and status 408. -/
theorem lsJobFinishedWithErrorSlot_network_error_witness :
    (lsJobFinishedWithErrorSlot ⟨1, 408, [], ['x']⟩).1 = Errno.EIO ∧
    (lsJobFinishedWithErrorSlot ⟨1, 408, [], ['x']⟩).1 = get_errno_from_http_errcode 500 ∧
    (lsJobFinishedWithErrorSlot ⟨1, 408, [], ['x']⟩).2 = ['x'] :=
  lsJobFinishedWithErrorSlot_network_error ⟨1, 408, [], ['x']⟩ (by decide)

/-- `qcontains` holds exactly when the pattern occurs in the string. -/
theorem qcontains_iff (s pat : QString) :
    qcontains s pat = true ↔ ∃ a b, s = a ++ pat ++ b := by
  induction s with
  | nil =>
    simp only [qcontains, List.isEmpty_iff]
    constructor
    · intro h
      exact ⟨[], [], by simp [h]⟩
    · rintro ⟨a, b, h⟩
      have h1 := List.append_eq_nil.mp h.symm
      exact (List.append_eq_nil.mp h1.1).2
  | cons c s ih =>
    simp only [qcontains, Bool.or_eq_true, List.isPrefixOf_iff_prefix]
    constructor
    · rintro (h | h)
      · obtain ⟨b, hb⟩ := h
        exact ⟨[], b, by simp [hb]⟩
      · obtain ⟨a, b, hab⟩ := ih.mp h
        exact ⟨c :: a, b, by simp [hab]⟩
    · rintro ⟨a, b, h⟩
      cases a with
      | nil => left; exact ⟨b, by simpa using h.symm⟩
      | cons x a =>
        right
        simp only [List.cons_append, List.cons.injEq] at h
        exact ih.mpr ⟨a, b, h.2⟩

/-- C6, counterexample: a reply with no network error, status 207 and the
content type `application/xml; charset=utf-8; q=1`, which is not equal to the
expected type, is not reported as `ERRNO_WRONG_CONTENT`: the handler emits `0`. -/
theorem lsJobFinishedWithErrorSlot_longer_content_type :
    "application/xml; charset=utf-8; q=1".toList ≠ xmlContentType ∧
    (lsJobFinishedWithErrorSlot
      ⟨NoError, 207, "application/xml; charset=utf-8; q=1".toList, []⟩).1 = Errno.OK ∧
    (lsJobFinishedWithErrorSlot
      ⟨NoError, 207, "application/xml; charset=utf-8; q=1".toList, []⟩).1
        ≠ Errno.ERRNO_WRONG_CONTENT := by
  decide

/-- C6, amended: for a reply with no network error and status 207, the failure
handler reports `ERRNO_WRONG_CONTENT` if and only if the text
`application/xml; charset=utf-8` does not occur in the content type. -/
theorem lsJobFinishedWithErrorSlot_wrong_content_iff (r : QNetworkReply)
    (herr : r.error = NoError) (hcode : r.httpCode = 207) :
    (lsJobFinishedWithErrorSlot r).1 = Errno.ERRNO_WRONG_CONTENT ↔
      ¬ ∃ a b, r.contentType = a ++ xmlContentType ++ b := by
  rw [← qcontains_iff]
  unfold lsJobFinishedWithErrorSlot
  simp only [herr, hcode, ne_eq, not_true_eq_false, if_false]
  by_cases h : qcontains r.contentType xmlContentType = true
  · simp [h]
  · simp [h]

/-- Witness for C6, amended: a 207 reply of type `text/html`, received without
network error, is reported as `ERRNO_WRONG_CONTENT`. -/
theorem lsJobFinishedWithErrorSlot_wrong_content_iff_witness :
    (⟨NoError, 207, "text/html".toList, []⟩ : QNetworkReply).error = NoError ∧
    (⟨NoError, 207, "text/html".toList, []⟩ : QNetworkReply).httpCode = 207 ∧
    (lsJobFinishedWithErrorSlot ⟨NoError, 207, "text/html".toList, []⟩).1
        = Errno.ERRNO_WRONG_CONTENT :=
  ⟨rfl, rfl,
   (lsJobFinishedWithErrorSlot_wrong_content_iff ⟨NoError, 207, "text/html".toList, []⟩
      rfl rfl).mpr (by rw [← qcontains_iff]; decide)⟩

/-- C7, the code at the failing input: for a reply with no network error and
status 200 the failure handler emits `finishedWithError` with the code `0`,
the bridge writes `0` into the result object, and the open hook returns the
object as a handle, with an empty list and a default iterator, and sets no
error. -/
theorem opendirWithFailedJob_status_200 :
    (lsJobFinishedWithErrorSlot ⟨NoError, 200, [], []⟩).1 = Errno.OK ∧
    opendirWithFailedJob none "/remote.php/webdav/docs".toList ⟨NoError, 200, [], []⟩ =
      (some { path := "/remote.php/webdav/docs".toList, msg := [], code := Errno.OK,
              list := [], iterator := none }, none) := by
  decide

/-! ## Theorems: the directory listing job -/

/-- A string with nothing or a non-slash at its end keeps that property when
a character is put in front, unless the string was empty. -/
theorem endsWithChar_cons (c : Char) (s : QString) (hs : s ≠ []) (d : Char) :
    endsWithChar (c :: s) d = endsWithChar s d := by
  cases s with
  | nil => exact absurd rfl hs
  | cons x xs => simp [endsWithChar, List.getLast?_cons_cons]

/-- The loop removing leading slashes leaves a string without leading slash
as it is. -/
theorem removeLeadingSlashes_id (file : QString)
    (h : startsWithChar file '/' = false) : removeLeadingSlashes file = file := by
  cases file with
  | nil => rfl
  | cons c rest =>
    unfold removeLeadingSlashes
    have hc : c ≠ '/' := by
      intro hc
      simp [startsWithChar, hc] at h
    rw [if_neg hc]

/-- The loop removing trailing slashes removes a run of slashes appended to a
string that does not end with a slash, and nothing more. -/
theorem chopSlashesLoop_append_replicate (k fuel : Nat) (s : QString)
    (hs : endsWithChar s '/' = false) (hk : k ≤ fuel) :
    chopSlashesLoop fuel (s ++ List.replicate k '/') = s := by
  induction k generalizing fuel with
  | zero =>
    simp only [List.replicate_zero, List.append_nil]
    cases fuel with
    | zero => rfl
    | succ fuel =>
      unfold chopSlashesLoop
      simp [hs]
  | succ k ih =>
    cases fuel with
    | zero => omega
    | succ fuel =>
      unfold chopSlashesLoop
      have hrep : s ++ List.replicate (k + 1) '/' = (s ++ List.replicate k '/') ++ ['/'] := by
        rw [List.replicate_succ', List.append_assoc]
      rw [hrep]
      have hend : endsWithChar ((s ++ List.replicate k '/') ++ ['/']) '/' = true := by
        simp [endsWithChar]
      rw [if_pos hend, List.dropLast_concat]
      exact ih fuel (by omega)

/-- The name stored for a tuple named by the request path, a slash, a child
name and a run of slashes is the child name, when the child name neither
starts nor ends with a slash. -/
theorem relativeName_child (requestPath name : QString) (k : Nat)
    (h1 : startsWithChar name '/' = false) (h2 : endsWithChar name '/' = false) :
    relativeName requestPath (requestPath ++ '/' :: name ++ List.replicate k '/') = name := by
  unfold relativeName chopSlashes
  have hdrop : (requestPath ++ '/' :: name ++ List.replicate k '/').drop requestPath.length
      = '/' :: name ++ List.replicate k '/' := by
    simp
  rw [hdrop]
  by_cases hn : name = []
  · subst hn
    have e : ('/' :: ([] : QString) ++ List.replicate k '/')
        = [] ++ List.replicate (k + 1) '/' := by
      simp [List.replicate_succ]
    rw [e, chopSlashesLoop_append_replicate (k + 1) _ [] rfl (by simp)]
    rfl
  · have e : ('/' :: name ++ List.replicate k '/')
        = ('/' :: name) ++ List.replicate k '/' := by simp
    have hend : endsWithChar ('/' :: name) '/' = false := by
      rw [endsWithChar_cons _ _ hn]; exact h2
    rw [e, chopSlashesLoop_append_replicate k _ ('/' :: name) hend (by simp; omega)]
    unfold removeLeadingSlashes
    rw [if_pos rfl]
    exact removeLeadingSlashes_id name h1

/-- Once the first tuple has been ignored, every tuple appends one record. -/
theorem listingIterated_children (ext : Externals) (requestPath : QString)
    (children : List (QString × Nat × QMap))
    (h : ∀ c ∈ children, startsWithChar c.1 '/' = false ∧ endsWithChar c.1 '/' = false)
    (job : DiscoverySingleDirectoryJob) (hp : job.requestPath = requestPath)
    (hi : job._ignoredFirst = true) :
    listingIterated ext job (children.map (childTuple requestPath)) =
      { job with _results := job._results ++ children.map (childRecord ext) } := by
  induction children generalizing job with
  | nil => simp [listingIterated]
  | cons c cs ih =>
    have hc := h c (List.mem_cons_self _ _)
    have hcs : ∀ c ∈ cs, startsWithChar c.1 '/' = false ∧ endsWithChar c.1 '/' = false :=
      fun x hx => h x (List.mem_cons_of_mem _ hx)
    have hstep : (directoryListingIteratedSlot ext job (childTuple requestPath c).1
        (childTuple requestPath c).2).1 =
        { job with _results := job._results ++ [childRecord ext c] } := by
      unfold directoryListingIteratedSlot
      simp only [hi, not_true_eq_false, if_false]
      have hn : relativeName job.requestPath (childTuple requestPath c).1 = c.1 := by
        rw [hp]
        have := relativeName_child requestPath c.1 c.2.1 hc.1 hc.2
        simpa [childTuple] using this
      rw [hn]
      rfl
    unfold listingIterated at ih ⊢
    have hrest := ih hcs { job with _results := job._results ++ [childRecord ext c] } hp hi
    rw [List.map_cons, List.foldl_cons, hstep, hrest]
    simp

/-- C8: for a listing made of a self-entry followed by children, each child
named by the request path of the listed directory, a slash, a child name
(which neither starts nor ends with a slash) and any number of trailing
slashes, the job's completed result holds exactly one record per child, in
listing order, the i-th record being the i-th child's normalised property map
under the child's name alone; the self-entry gives no record. -/
theorem runListing_children (ext : Externals) (subPath requestPath : QString)
    (self : QString × QMap) (children : List (QString × Nat × QMap))
    (h : ∀ c ∈ children, startsWithChar c.1 '/' = false ∧ endsWithChar c.1 '/' = false) :
    ∃ result, runListing ext subPath requestPath
        (self :: children.map (childTuple requestPath)) = JobSignal.finishedWithResult result ∧
      result = children.map (childRecord ext) ∧
      result.length = children.length ∧
      result.map (fun r => r.name) = children.map (fun c => some c.1) := by
  refine ⟨children.map (childRecord ext), ?_, rfl, by simp, ?_⟩
  · unfold runListing lsJobFinishedWithoutErrorSlot
    have h0 : listingIterated ext { _subPath := subPath, requestPath := requestPath }
        (self :: children.map (childTuple requestPath)) =
        listingIterated ext
          { _subPath := subPath, requestPath := requestPath, _ignoredFirst := true }
          (children.map (childTuple requestPath)) := by
      simp [listingIterated, directoryListingIteratedSlot]
    rw [h0, listingIterated_children ext requestPath children h _ rfl rfl]
    simp
  · simp [childRecord, Function.comp_def]

/-- Witness for C8: listing `/docs` with a self-entry and the children
`/docs/a.txt` and `/docs/sub/` yields the records named `a.txt` and `sub`, in
that order. -/
theorem runListing_children_witness :
    ∃ result, runListing sampleExternals "docs".toList "/docs".toList
        [("/docs/".toList, [("permissions".toList, "RDNVCK".toList)]),
         ("/docs/a.txt".toList, [("getcontentlength".toList, "10".toList)]),
         ("/docs/sub/".toList, [("resourcetype".toList, "collection".toList)])]
          = JobSignal.finishedWithResult result ∧
      result.length = 2 ∧
      result.map (fun r => r.name) = [some "a.txt".toList, some "sub".toList] := by
  obtain ⟨result, h1, _, h3, h4⟩ :=
    runListing_children sampleExternals "docs".toList "/docs".toList
      ("/docs/".toList, [("permissions".toList, "RDNVCK".toList)])
      [("a.txt".toList, 0, [("getcontentlength".toList, "10".toList)]),
       ("sub".toList, 1, [("resourcetype".toList, "collection".toList)])]
      (by decide)
  exact ⟨result, h1, h3, h4⟩

/-- An entry under another key than `permissions` leaves the permissions of
the record as they are. -/
theorem propertyStep_other_key (ext : Externals) (fs : csync_vio_file_stat_t)
    (entry : QString × QString) (h : entry.1 ≠ "permissions".toList) :
    (propertyStep ext fs entry).remotePerm = fs.remotePerm ∧
    (propertyStep ext fs entry).fields.PERM = fs.fields.PERM := by
  unfold propertyStep
  simp only [h, if_false]
  repeat' split
  all_goals exact ⟨rfl, rfl⟩

/-- Entries under other keys than `permissions` leave the permissions of the
record as they are. -/
theorem foldl_propertyStep_other_keys (ext : Externals) (l : QMap)
    (fs : csync_vio_file_stat_t) (h : ∀ e ∈ l, e.1 ≠ "permissions".toList) :
    (l.foldl (propertyStep ext) fs).remotePerm = fs.remotePerm ∧
    (l.foldl (propertyStep ext) fs).fields.PERM = fs.fields.PERM := by
  induction l generalizing fs with
  | nil => exact ⟨rfl, rfl⟩
  | cons e l ih =>
    have h1 := propertyStep_other_key ext fs e (h e (List.mem_cons_self _ _))
    have h2 := ih (propertyStep ext fs e) (fun x hx => h x (List.mem_cons_of_mem _ hx))
    rw [List.foldl_cons]
    exact ⟨h2.1.trans h1.1, h2.2.trans h1.2⟩

/-- The entry `permissions` with an empty value marks the permissions present
and puts a space at the start of the buffer. -/
theorem propertyStep_empty_permissions (ext : Externals) (fs : csync_vio_file_stat_t) :
    (propertyStep ext fs ("permissions".toList, [])).remotePerm
      = ' ' :: fs.remotePerm.drop 1 ∧
    (propertyStep ext fs ("permissions".toList, [])).fields.PERM = true := by
  unfold propertyStep
  simp only
  rw [if_neg (by decide), if_neg (by decide), if_neg (by decide), if_neg (by decide),
    if_neg (by decide), if_neg (by decide), if_neg (by decide)]
  exact ⟨rfl, rfl⟩

/-- C10, counterexample: for the map with the one entry `permissions` with
the empty string, the record has the permissions marked present and the
permissions value is the one-character string made of a space, not the empty
string. -/
theorem propertyMapToFileStat_empty_permissions_value :
    (propertyMapToFileStat sampleExternals [("permissions".toList, [])]).fields.PERM = true ∧
    (propertyMapToFileStat sampleExternals [("permissions".toList, [])]).remotePerm = [' '] ∧
    (propertyMapToFileStat sampleExternals [("permissions".toList, [])]).remotePerm ≠ [] := by
  decide

/-- C10, amended: for every property map (a map holds no key twice)
containing the key `permissions` with the empty string as value, the record
has the permissions marked present, and its permissions value is the
one-character placeholder made of a space (which is not the empty buffer of a
record without permissions). -/
theorem propertyMapToFileStat_empty_permissions (ext : Externals) (m : QMap)
    (hu : m.UniqueKeys) (hm : ("permissions".toList, []) ∈ m) :
    (propertyMapToFileStat ext m).fields.PERM = true ∧
    (propertyMapToFileStat ext m).remotePerm = [' '] ∧
    (propertyMapToFileStat ext m).remotePerm ≠ csync_vio_file_stat_new.remotePerm := by
  obtain ⟨l1, l2, rfl⟩ := List.append_of_mem hm
  unfold QMap.UniqueKeys at hu
  rw [List.map_append, List.map_cons, List.nodup_append] at hu
  obtain ⟨_, h2, hdis⟩ := hu
  have hl1 : ∀ e ∈ l1, e.1 ≠ "permissions".toList := by
    intro e he heq
    have hmem : e.1 ∈ l1.map Prod.fst := List.mem_map_of_mem Prod.fst he
    rw [heq] at hmem
    exact hdis hmem (List.mem_cons_self _ _)
  have hl2 : ∀ e ∈ l2, e.1 ≠ "permissions".toList := by
    intro e he heq
    have hmem : e.1 ∈ l2.map Prod.fst := List.mem_map_of_mem Prod.fst he
    rw [heq] at hmem
    exact (List.nodup_cons.mp h2).1 hmem
  unfold propertyMapToFileStat
  rw [List.foldl_append, List.foldl_cons]
  have a1 := foldl_propertyStep_other_keys ext l1 csync_vio_file_stat_new hl1
  have a2 := propertyStep_empty_permissions ext
    (l1.foldl (propertyStep ext) csync_vio_file_stat_new)
  have a3 := foldl_propertyStep_other_keys ext l2 (propertyStep ext
    (l1.foldl (propertyStep ext) csync_vio_file_stat_new) ("permissions".toList, [])) hl2
  have hperm : (l2.foldl (propertyStep ext) (propertyStep ext
      (l1.foldl (propertyStep ext) csync_vio_file_stat_new)
      ("permissions".toList, []))).remotePerm = [' '] := by
    rw [a3.1, a2.1, a1.1]; rfl
  refine ⟨?_, hperm, ?_⟩
  · rw [a3.2, a2.2]
  · rw [hperm]; decide

/-- Witness for C10, amended: the map of a read-only directory, with an empty
`permissions` value among other properties. -/
theorem propertyMapToFileStat_empty_permissions_witness :
    (propertyMapToFileStat sampleExternals
      [("getetag".toList, "abc".toList), ("permissions".toList, []),
       ("resourcetype".toList, "collection".toList)]).fields.PERM = true ∧
    (propertyMapToFileStat sampleExternals
      [("getetag".toList, "abc".toList), ("permissions".toList, []),
       ("resourcetype".toList, "collection".toList)]).remotePerm = [' '] ∧
    (propertyMapToFileStat sampleExternals
      [("getetag".toList, "abc".toList), ("permissions".toList, []),
       ("resourcetype".toList, "collection".toList)]).remotePerm
      ≠ csync_vio_file_stat_new.remotePerm :=
  propertyMapToFileStat_empty_permissions sampleExternals
    [("getetag".toList, "abc".toList), ("permissions".toList, []),
     ("resourcetype".toList, "collection".toList)]
    (by unfold QMap.UniqueKeys; decide) (by decide)

/-- An entry under another key than the one a member of the record belongs to
leaves that member and its flag as they are. -/
theorem propertyStep_keeps (ext : Externals) (fs : csync_vio_file_stat_t)
    (e : QString × QString) :
    (e.1 ≠ "resourcetype".toList →
      (propertyStep ext fs e).fields.TYPE = fs.fields.TYPE ∧
      (propertyStep ext fs e).type = fs.type) ∧
    (e.1 ≠ "getlastmodified".toList →
      (propertyStep ext fs e).fields.MTIME = fs.fields.MTIME ∧
      (propertyStep ext fs e).mtime = fs.mtime) ∧
    (e.1 ≠ "getcontentlength".toList →
      (propertyStep ext fs e).fields.SIZE = fs.fields.SIZE ∧
      (propertyStep ext fs e).size = fs.size) ∧
    (e.1 ≠ "getetag".toList →
      (propertyStep ext fs e).fields.ETAG = fs.fields.ETAG ∧
      (propertyStep ext fs e).etag = fs.etag) ∧
    (e.1 ≠ "downloadURL".toList →
      (propertyStep ext fs e).fields.DIRECTDOWNLOADURL = fs.fields.DIRECTDOWNLOADURL ∧
      (propertyStep ext fs e).directDownloadUrl = fs.directDownloadUrl) ∧
    (e.1 ≠ "dDC".toList →
      (propertyStep ext fs e).fields.DIRECTDOWNLOADCOOKIES = fs.fields.DIRECTDOWNLOADCOOKIES ∧
      (propertyStep ext fs e).directDownloadCookies = fs.directDownloadCookies) ∧
    (e.1 ≠ "permissions".toList →
      (propertyStep ext fs e).fields.PERM = fs.fields.PERM ∧
      (propertyStep ext fs e).remotePerm = fs.remotePerm) := by
  refine ⟨?_, ?_, ?_, ?_, ?_, ?_, ?_⟩
  · intro h
    unfold propertyStep csync_vio_file_stat_set_file_id
    simp only
    by_cases h0 : e.1 = "resourcetype".toList
    · exact absurd h0 h
    rw [if_neg h0]
    by_cases h1 : e.1 = "getlastmodified".toList
    · rw [if_pos h1]
      exact ⟨rfl, rfl⟩
    rw [if_neg h1]
    by_cases h2 : e.1 = "getcontentlength".toList
    · rw [if_pos h2]
      exact ⟨rfl, rfl⟩
    rw [if_neg h2]
    by_cases h3 : e.1 = "getetag".toList
    · rw [if_pos h3]
      exact ⟨rfl, rfl⟩
    rw [if_neg h3]
    by_cases h4 : e.1 = "id".toList
    · rw [if_pos h4]
      exact ⟨rfl, rfl⟩
    rw [if_neg h4]
    by_cases h5 : e.1 = "downloadURL".toList
    · rw [if_pos h5]
      exact ⟨rfl, rfl⟩
    rw [if_neg h5]
    by_cases h6 : e.1 = "dDC".toList
    · rw [if_pos h6]
      exact ⟨rfl, rfl⟩
    rw [if_neg h6]
    by_cases h7 : e.1 = "permissions".toList
    · rw [if_pos h7]
      split
      · exact ⟨rfl, rfl⟩
      · split <;> exact ⟨rfl, rfl⟩
    rw [if_neg h7]
    exact ⟨rfl, rfl⟩
  · intro h
    unfold propertyStep csync_vio_file_stat_set_file_id
    simp only
    by_cases h0 : e.1 = "resourcetype".toList
    · rw [if_pos h0]
      exact ⟨rfl, rfl⟩
    rw [if_neg h0]
    by_cases h1 : e.1 = "getlastmodified".toList
    · exact absurd h1 h
    rw [if_neg h1]
    by_cases h2 : e.1 = "getcontentlength".toList
    · rw [if_pos h2]
      exact ⟨rfl, rfl⟩
    rw [if_neg h2]
    by_cases h3 : e.1 = "getetag".toList
    · rw [if_pos h3]
      exact ⟨rfl, rfl⟩
    rw [if_neg h3]
    by_cases h4 : e.1 = "id".toList
    · rw [if_pos h4]
      exact ⟨rfl, rfl⟩
    rw [if_neg h4]
    by_cases h5 : e.1 = "downloadURL".toList
    · rw [if_pos h5]
      exact ⟨rfl, rfl⟩
    rw [if_neg h5]
    by_cases h6 : e.1 = "dDC".toList
    · rw [if_pos h6]
      exact ⟨rfl, rfl⟩
    rw [if_neg h6]
    by_cases h7 : e.1 = "permissions".toList
    · rw [if_pos h7]
      split
      · exact ⟨rfl, rfl⟩
      · split <;> exact ⟨rfl, rfl⟩
    rw [if_neg h7]
    exact ⟨rfl, rfl⟩
  · intro h
    unfold propertyStep csync_vio_file_stat_set_file_id
    simp only
    by_cases h0 : e.1 = "resourcetype".toList
    · rw [if_pos h0]
      exact ⟨rfl, rfl⟩
    rw [if_neg h0]
    by_cases h1 : e.1 = "getlastmodified".toList
    · rw [if_pos h1]
      exact ⟨rfl, rfl⟩
    rw [if_neg h1]
    by_cases h2 : e.1 = "getcontentlength".toList
    · exact absurd h2 h
    rw [if_neg h2]
    by_cases h3 : e.1 = "getetag".toList
    · rw [if_pos h3]
      exact ⟨rfl, rfl⟩
    rw [if_neg h3]
    by_cases h4 : e.1 = "id".toList
    · rw [if_pos h4]
      exact ⟨rfl, rfl⟩
    rw [if_neg h4]
    by_cases h5 : e.1 = "downloadURL".toList
    · rw [if_pos h5]
      exact ⟨rfl, rfl⟩
    rw [if_neg h5]
    by_cases h6 : e.1 = "dDC".toList
    · rw [if_pos h6]
      exact ⟨rfl, rfl⟩
    rw [if_neg h6]
    by_cases h7 : e.1 = "permissions".toList
    · rw [if_pos h7]
      split
      · exact ⟨rfl, rfl⟩
      · split <;> exact ⟨rfl, rfl⟩
    rw [if_neg h7]
    exact ⟨rfl, rfl⟩
  · intro h
    unfold propertyStep csync_vio_file_stat_set_file_id
    simp only
    by_cases h0 : e.1 = "resourcetype".toList
    · rw [if_pos h0]
      exact ⟨rfl, rfl⟩
    rw [if_neg h0]
    by_cases h1 : e.1 = "getlastmodified".toList
    · rw [if_pos h1]
      exact ⟨rfl, rfl⟩
    rw [if_neg h1]
    by_cases h2 : e.1 = "getcontentlength".toList
    · rw [if_pos h2]
      exact ⟨rfl, rfl⟩
    rw [if_neg h2]
    by_cases h3 : e.1 = "getetag".toList
    · exact absurd h3 h
    rw [if_neg h3]
    by_cases h4 : e.1 = "id".toList
    · rw [if_pos h4]
      exact ⟨rfl, rfl⟩
    rw [if_neg h4]
    by_cases h5 : e.1 = "downloadURL".toList
    · rw [if_pos h5]
      exact ⟨rfl, rfl⟩
    rw [if_neg h5]
    by_cases h6 : e.1 = "dDC".toList
    · rw [if_pos h6]
      exact ⟨rfl, rfl⟩
    rw [if_neg h6]
    by_cases h7 : e.1 = "permissions".toList
    · rw [if_pos h7]
      split
      · exact ⟨rfl, rfl⟩
      · split <;> exact ⟨rfl, rfl⟩
    rw [if_neg h7]
    exact ⟨rfl, rfl⟩
  · intro h
    unfold propertyStep csync_vio_file_stat_set_file_id
    simp only
    by_cases h0 : e.1 = "resourcetype".toList
    · rw [if_pos h0]
      exact ⟨rfl, rfl⟩
    rw [if_neg h0]
    by_cases h1 : e.1 = "getlastmodified".toList
    · rw [if_pos h1]
      exact ⟨rfl, rfl⟩
    rw [if_neg h1]
    by_cases h2 : e.1 = "getcontentlength".toList
    · rw [if_pos h2]
      exact ⟨rfl, rfl⟩
    rw [if_neg h2]
    by_cases h3 : e.1 = "getetag".toList
    · rw [if_pos h3]
      exact ⟨rfl, rfl⟩
    rw [if_neg h3]
    by_cases h4 : e.1 = "id".toList
    · rw [if_pos h4]
      exact ⟨rfl, rfl⟩
    rw [if_neg h4]
    by_cases h5 : e.1 = "downloadURL".toList
    · exact absurd h5 h
    rw [if_neg h5]
    by_cases h6 : e.1 = "dDC".toList
    · rw [if_pos h6]
      exact ⟨rfl, rfl⟩
    rw [if_neg h6]
    by_cases h7 : e.1 = "permissions".toList
    · rw [if_pos h7]
      split
      · exact ⟨rfl, rfl⟩
      · split <;> exact ⟨rfl, rfl⟩
    rw [if_neg h7]
    exact ⟨rfl, rfl⟩
  · intro h
    unfold propertyStep csync_vio_file_stat_set_file_id
    simp only
    by_cases h0 : e.1 = "resourcetype".toList
    · rw [if_pos h0]
      exact ⟨rfl, rfl⟩
    rw [if_neg h0]
    by_cases h1 : e.1 = "getlastmodified".toList
    · rw [if_pos h1]
      exact ⟨rfl, rfl⟩
    rw [if_neg h1]
    by_cases h2 : e.1 = "getcontentlength".toList
    · rw [if_pos h2]
      exact ⟨rfl, rfl⟩
    rw [if_neg h2]
    by_cases h3 : e.1 = "getetag".toList
    · rw [if_pos h3]
      exact ⟨rfl, rfl⟩
    rw [if_neg h3]
    by_cases h4 : e.1 = "id".toList
    · rw [if_pos h4]
      exact ⟨rfl, rfl⟩
    rw [if_neg h4]
    by_cases h5 : e.1 = "downloadURL".toList
    · rw [if_pos h5]
      exact ⟨rfl, rfl⟩
    rw [if_neg h5]
    by_cases h6 : e.1 = "dDC".toList
    · exact absurd h6 h
    rw [if_neg h6]
    by_cases h7 : e.1 = "permissions".toList
    · rw [if_pos h7]
      split
      · exact ⟨rfl, rfl⟩
      · split <;> exact ⟨rfl, rfl⟩
    rw [if_neg h7]
    exact ⟨rfl, rfl⟩
  · intro h
    unfold propertyStep csync_vio_file_stat_set_file_id
    simp only
    by_cases h0 : e.1 = "resourcetype".toList
    · rw [if_pos h0]
      exact ⟨rfl, rfl⟩
    rw [if_neg h0]
    by_cases h1 : e.1 = "getlastmodified".toList
    · rw [if_pos h1]
      exact ⟨rfl, rfl⟩
    rw [if_neg h1]
    by_cases h2 : e.1 = "getcontentlength".toList
    · rw [if_pos h2]
      exact ⟨rfl, rfl⟩
    rw [if_neg h2]
    by_cases h3 : e.1 = "getetag".toList
    · rw [if_pos h3]
      exact ⟨rfl, rfl⟩
    rw [if_neg h3]
    by_cases h4 : e.1 = "id".toList
    · rw [if_pos h4]
      exact ⟨rfl, rfl⟩
    rw [if_neg h4]
    by_cases h5 : e.1 = "downloadURL".toList
    · rw [if_pos h5]
      exact ⟨rfl, rfl⟩
    rw [if_neg h5]
    by_cases h6 : e.1 = "dDC".toList
    · rw [if_pos h6]
      exact ⟨rfl, rfl⟩
    rw [if_neg h6]
    by_cases h7 : e.1 = "permissions".toList
    · exact absurd h7 h
    rw [if_neg h7]
    exact ⟨rfl, rfl⟩

/-- The value a member has after an entry under its own key. -/
theorem propertyStep_sets (ext : Externals) (fs : csync_vio_file_stat_t) (v : QString) :
    ((propertyStep ext fs ("resourcetype".toList, v)).fields.TYPE = true ∧
      (propertyStep ext fs ("resourcetype".toList, v)).type =
        if qcontains v "collection".toList then
          csync_vio_file_type.CSYNC_VIO_FILE_TYPE_DIRECTORY
        else csync_vio_file_type.CSYNC_VIO_FILE_TYPE_REGULAR) ∧
    ((propertyStep ext fs ("getlastmodified".toList, v)).fields.MTIME = true ∧
      (propertyStep ext fs ("getlastmodified".toList, v)).mtime = ext.oc_httpdate_parse v) ∧
    ((propertyStep ext fs ("getcontentlength".toList, v)).fields.SIZE = true ∧
      (propertyStep ext fs ("getcontentlength".toList, v)).size = ext.toLongLong v) ∧
    ((propertyStep ext fs ("getetag".toList, v)).fields.ETAG = true ∧
      (propertyStep ext fs ("getetag".toList, v)).etag = some (ext.csync_normalize_etag v)) ∧
    ((propertyStep ext fs ("downloadURL".toList, v)).fields.DIRECTDOWNLOADURL = true ∧
      (propertyStep ext fs ("downloadURL".toList, v)).directDownloadUrl = some v) ∧
    ((propertyStep ext fs ("dDC".toList, v)).fields.DIRECTDOWNLOADCOOKIES = true ∧
      (propertyStep ext fs ("dDC".toList, v)).directDownloadCookies = some v) := by
  unfold propertyStep
  refine ⟨?_, ?_, ?_, ?_, ?_, ?_⟩
  · exact ⟨rfl, rfl⟩
  · simp only
    rw [if_neg (by decide)]
    exact ⟨rfl, rfl⟩
  · simp only
    rw [if_neg (by decide), if_neg (by decide)]
    exact ⟨rfl, rfl⟩
  · simp only
    rw [if_neg (by decide), if_neg (by decide), if_neg (by decide)]
    exact ⟨rfl, rfl⟩
  · simp only
    rw [if_neg (by decide), if_neg (by decide), if_neg (by decide), if_neg (by decide),
      if_neg (by decide)]
    exact ⟨rfl, rfl⟩
  · simp only
    rw [if_neg (by decide), if_neg (by decide), if_neg (by decide), if_neg (by decide),
      if_neg (by decide), if_neg (by decide)]
    exact ⟨rfl, rfl⟩

/-- What is read off a record stays as it is over entries under other keys,
when single entries under other keys leave it as it is. -/
theorem foldl_propertyStep_proj {α : Type} (ext : Externals) (k : QString)
    (proj : csync_vio_file_stat_t → α)
    (hpres : ∀ fs e, e.1 ≠ k → proj (propertyStep ext fs e) = proj fs)
    (l : QMap) (fs : csync_vio_file_stat_t) (h : ∀ e ∈ l, e.1 ≠ k) :
    proj (l.foldl (propertyStep ext) fs) = proj fs := by
  induction l generalizing fs with
  | nil => rfl
  | cons e l ih =>
    rw [List.foldl_cons, ih _ (fun x hx => h x (List.mem_cons_of_mem _ hx))]
    exact hpres fs e (h e (List.mem_cons_self _ _))

/-- In a map without repeated keys, what is read off the record of the map is
what the entry under the key makes of a record on which it reads as on a new
one. -/
theorem propertyMapToFileStat_at_key {α : Type} (ext : Externals) (k : QString)
    (proj : csync_vio_file_stat_t → α)
    (hpres : ∀ fs e, e.1 ≠ k → proj (propertyStep ext fs e) = proj fs)
    (m : QMap) (hu : m.UniqueKeys) (v : QString) (hm : (k, v) ∈ m) :
    ∃ fs0, proj fs0 = proj csync_vio_file_stat_new ∧
      proj (propertyMapToFileStat ext m) = proj (propertyStep ext fs0 (k, v)) := by
  obtain ⟨l1, l2, rfl⟩ := List.append_of_mem hm
  unfold QMap.UniqueKeys at hu
  rw [List.map_append, List.map_cons, List.nodup_append] at hu
  obtain ⟨_, h2, hdis⟩ := hu
  have hl1 : ∀ e ∈ l1, e.1 ≠ k := by
    intro e he heq
    have hmem : e.1 ∈ l1.map Prod.fst := List.mem_map_of_mem Prod.fst he
    rw [heq] at hmem
    exact hdis hmem (List.mem_cons_self _ _)
  have hl2 : ∀ e ∈ l2, e.1 ≠ k := by
    intro e he heq
    have hmem : e.1 ∈ l2.map Prod.fst := List.mem_map_of_mem Prod.fst he
    rw [heq] at hmem
    exact (List.nodup_cons.mp h2).1 hmem
  refine ⟨l1.foldl (propertyStep ext) csync_vio_file_stat_new, ?_, ?_⟩
  · exact foldl_propertyStep_proj ext k proj hpres l1 _ hl1
  · unfold propertyMapToFileStat
    rw [List.foldl_append, List.foldl_cons]
    exact foldl_propertyStep_proj ext k proj hpres l2 _ hl2

/-- C11: for every property map and each of the members kind, mtime, size,
etag, permissions, direct download URL and direct download cookies, when the
map has no entry under the member's key (`resourcetype`, `getlastmodified`,
`getcontentlength`, `getetag`, `permissions`, `downloadURL`, `dDC`), the
record has the member's flag unset; a map without `permissions` gives a
record without the permissions flag. -/
theorem propertyMapToFileStat_absent (ext : Externals) (m : QMap) :
    ((∀ e ∈ m, e.1 ≠ "resourcetype".toList) →
      (propertyMapToFileStat ext m).fields.TYPE = false) ∧
    ((∀ e ∈ m, e.1 ≠ "getlastmodified".toList) →
      (propertyMapToFileStat ext m).fields.MTIME = false) ∧
    ((∀ e ∈ m, e.1 ≠ "getcontentlength".toList) →
      (propertyMapToFileStat ext m).fields.SIZE = false) ∧
    ((∀ e ∈ m, e.1 ≠ "getetag".toList) →
      (propertyMapToFileStat ext m).fields.ETAG = false) ∧
    ((∀ e ∈ m, e.1 ≠ "permissions".toList) →
      (propertyMapToFileStat ext m).fields.PERM = false) ∧
    ((∀ e ∈ m, e.1 ≠ "downloadURL".toList) →
      (propertyMapToFileStat ext m).fields.DIRECTDOWNLOADURL = false) ∧
    ((∀ e ∈ m, e.1 ≠ "dDC".toList) →
      (propertyMapToFileStat ext m).fields.DIRECTDOWNLOADCOOKIES = false) := by
  unfold propertyMapToFileStat
  refine ⟨?_, ?_, ?_, ?_, ?_, ?_, ?_⟩
  · intro h
    exact foldl_propertyStep_proj ext _ (fun f => f.fields.TYPE)
      (fun fs e he => ((propertyStep_keeps ext fs e).1 he).1) m _ h
  · intro h
    exact foldl_propertyStep_proj ext _ (fun f => f.fields.MTIME)
      (fun fs e he => ((propertyStep_keeps ext fs e).2.1 he).1) m _ h
  · intro h
    exact foldl_propertyStep_proj ext _ (fun f => f.fields.SIZE)
      (fun fs e he => ((propertyStep_keeps ext fs e).2.2.1 he).1) m _ h
  · intro h
    exact foldl_propertyStep_proj ext _ (fun f => f.fields.ETAG)
      (fun fs e he => ((propertyStep_keeps ext fs e).2.2.2.1 he).1) m _ h
  · intro h
    exact foldl_propertyStep_proj ext _ (fun f => f.fields.PERM)
      (fun fs e he => ((propertyStep_keeps ext fs e).2.2.2.2.2.2 he).1) m _ h
  · intro h
    exact foldl_propertyStep_proj ext _ (fun f => f.fields.DIRECTDOWNLOADURL)
      (fun fs e he => ((propertyStep_keeps ext fs e).2.2.2.2.1 he).1) m _ h
  · intro h
    exact foldl_propertyStep_proj ext _ (fun f => f.fields.DIRECTDOWNLOADCOOKIES)
      (fun fs e he => ((propertyStep_keeps ext fs e).2.2.2.2.2.1 he).1) m _ h

/-- Witness for C11: the map with the keys `getcontentlength` and `getetag`
only has no kind, no mtime, no permissions and no direct download members. -/
theorem propertyMapToFileStat_absent_witness :
    (propertyMapToFileStat decimalExternals
      [("getcontentlength".toList, "10".toList), ("getetag".toList, "e1".toList)]).fields.TYPE
        = false ∧
    (propertyMapToFileStat decimalExternals
      [("getcontentlength".toList, "10".toList), ("getetag".toList, "e1".toList)]).fields.MTIME
        = false ∧
    (propertyMapToFileStat decimalExternals
      [("getcontentlength".toList, "10".toList), ("getetag".toList, "e1".toList)]).fields.PERM
        = false ∧
    (propertyMapToFileStat decimalExternals
      [("getcontentlength".toList, "10".toList),
       ("getetag".toList, "e1".toList)]).fields.DIRECTDOWNLOADURL = false ∧
    (propertyMapToFileStat decimalExternals
      [("getcontentlength".toList, "10".toList),
       ("getetag".toList, "e1".toList)]).fields.DIRECTDOWNLOADCOOKIES = false :=
  ⟨(propertyMapToFileStat_absent decimalExternals
      [("getcontentlength".toList, "10".toList), ("getetag".toList, "e1".toList)]).1
      (by decide),
   (propertyMapToFileStat_absent decimalExternals
      [("getcontentlength".toList, "10".toList), ("getetag".toList, "e1".toList)]).2.1
      (by decide),
   (propertyMapToFileStat_absent decimalExternals
      [("getcontentlength".toList, "10".toList), ("getetag".toList, "e1".toList)]).2.2.2.2.1
      (by decide),
   (propertyMapToFileStat_absent decimalExternals
      [("getcontentlength".toList, "10".toList), ("getetag".toList, "e1".toList)]).2.2.2.2.2.1
      (by decide),
   (propertyMapToFileStat_absent decimalExternals
      [("getcontentlength".toList, "10".toList), ("getetag".toList, "e1".toList)]).2.2.2.2.2.2
      (by decide)⟩

/-- C12, counterexample: for the map with `getcontentlength` = `0` and
`permissions` = the empty string, the size is present with the value 0 and the
permissions are present, but the permissions value held is the one-character
string made of a space, not the empty string that was supplied. -/
theorem propertyMapToFileStat_zero_size_empty_permissions :
    (propertyMapToFileStat decimalExternals
      [("getcontentlength".toList, "0".toList), ("permissions".toList, [])]).fields.SIZE
        = true ∧
    (propertyMapToFileStat decimalExternals
      [("getcontentlength".toList, "0".toList), ("permissions".toList, [])]).size = 0 ∧
    (propertyMapToFileStat decimalExternals
      [("getcontentlength".toList, "0".toList), ("permissions".toList, [])]).fields.PERM
        = true ∧
    (propertyMapToFileStat decimalExternals
      [("getcontentlength".toList, "0".toList), ("permissions".toList, [])]).remotePerm
        ≠ [] := by
  decide

/-- C12, amended: for every property map (a map holds no key twice) and each
of the members kind, mtime, size, etag, direct download URL and direct
download cookies, when the map supplies the member's key with a value, empty
and zero values included, the record has the member's flag set and holds what
the code makes of that value: kind file unless the value contains
`collection`, the parsed date, the converted number (so size 0 for `0` when
`toLongLong` gives 0 for it), the normalised etag, the URL and the cookies
as supplied. For `permissions` with the empty value the flag is set and the
value held is the one-space placeholder. -/
theorem propertyMapToFileStat_present (ext : Externals) (m : QMap) (v : QString)
    (hu : m.UniqueKeys) :
    (("resourcetype".toList, v) ∈ m →
      (propertyMapToFileStat ext m).fields.TYPE = true ∧
      (propertyMapToFileStat ext m).type =
        if qcontains v "collection".toList then
          csync_vio_file_type.CSYNC_VIO_FILE_TYPE_DIRECTORY
        else csync_vio_file_type.CSYNC_VIO_FILE_TYPE_REGULAR) ∧
    (("getlastmodified".toList, v) ∈ m →
      (propertyMapToFileStat ext m).fields.MTIME = true ∧
      (propertyMapToFileStat ext m).mtime = ext.oc_httpdate_parse v) ∧
    (("getcontentlength".toList, v) ∈ m →
      (propertyMapToFileStat ext m).fields.SIZE = true ∧
      (propertyMapToFileStat ext m).size = ext.toLongLong v ∧
      (v = "0".toList → ext.toLongLong "0".toList = 0 →
        (propertyMapToFileStat ext m).size = 0)) ∧
    (("getetag".toList, v) ∈ m →
      (propertyMapToFileStat ext m).fields.ETAG = true ∧
      (propertyMapToFileStat ext m).etag = some (ext.csync_normalize_etag v)) ∧
    (("downloadURL".toList, v) ∈ m →
      (propertyMapToFileStat ext m).fields.DIRECTDOWNLOADURL = true ∧
      (propertyMapToFileStat ext m).directDownloadUrl = some v) ∧
    (("dDC".toList, v) ∈ m →
      (propertyMapToFileStat ext m).fields.DIRECTDOWNLOADCOOKIES = true ∧
      (propertyMapToFileStat ext m).directDownloadCookies = some v) ∧
    (("permissions".toList, []) ∈ m →
      (propertyMapToFileStat ext m).fields.PERM = true ∧
      (propertyMapToFileStat ext m).remotePerm = [' ']) := by
  refine ⟨?_, ?_, ?_, ?_, ?_, ?_, ?_⟩
  · intro hm
    obtain ⟨fs0, _, h⟩ := propertyMapToFileStat_at_key ext _
      (fun f => (f.fields.TYPE, f.type))
      (fun fs e he => Prod.ext ((propertyStep_keeps ext fs e).1 he).1
        ((propertyStep_keeps ext fs e).1 he).2) m hu v hm
    have hs := (propertyStep_sets ext fs0 v).1
    simp only [Prod.mk.injEq] at h
    exact ⟨h.1.trans hs.1, h.2.trans hs.2⟩
  · intro hm
    obtain ⟨fs0, _, h⟩ := propertyMapToFileStat_at_key ext _
      (fun f => (f.fields.MTIME, f.mtime))
      (fun fs e he => Prod.ext ((propertyStep_keeps ext fs e).2.1 he).1
        ((propertyStep_keeps ext fs e).2.1 he).2) m hu v hm
    have hs := (propertyStep_sets ext fs0 v).2.1
    simp only [Prod.mk.injEq] at h
    exact ⟨h.1.trans hs.1, h.2.trans hs.2⟩
  · intro hm
    obtain ⟨fs0, _, h⟩ := propertyMapToFileStat_at_key ext _
      (fun f => (f.fields.SIZE, f.size))
      (fun fs e he => Prod.ext ((propertyStep_keeps ext fs e).2.2.1 he).1
        ((propertyStep_keeps ext fs e).2.2.1 he).2) m hu v hm
    have hs := (propertyStep_sets ext fs0 v).2.2.1
    simp only [Prod.mk.injEq] at h
    refine ⟨h.1.trans hs.1, h.2.trans hs.2, ?_⟩
    intro hv h0
    rw [h.2.trans hs.2, hv, h0]
  · intro hm
    obtain ⟨fs0, _, h⟩ := propertyMapToFileStat_at_key ext _
      (fun f => (f.fields.ETAG, f.etag))
      (fun fs e he => Prod.ext ((propertyStep_keeps ext fs e).2.2.2.1 he).1
        ((propertyStep_keeps ext fs e).2.2.2.1 he).2) m hu v hm
    have hs := (propertyStep_sets ext fs0 v).2.2.2.1
    simp only [Prod.mk.injEq] at h
    exact ⟨h.1.trans hs.1, h.2.trans hs.2⟩
  · intro hm
    obtain ⟨fs0, _, h⟩ := propertyMapToFileStat_at_key ext _
      (fun f => (f.fields.DIRECTDOWNLOADURL, f.directDownloadUrl))
      (fun fs e he => Prod.ext ((propertyStep_keeps ext fs e).2.2.2.2.1 he).1
        ((propertyStep_keeps ext fs e).2.2.2.2.1 he).2) m hu v hm
    have hs := (propertyStep_sets ext fs0 v).2.2.2.2.1
    simp only [Prod.mk.injEq] at h
    exact ⟨h.1.trans hs.1, h.2.trans hs.2⟩
  · intro hm
    obtain ⟨fs0, _, h⟩ := propertyMapToFileStat_at_key ext _
      (fun f => (f.fields.DIRECTDOWNLOADCOOKIES, f.directDownloadCookies))
      (fun fs e he => Prod.ext ((propertyStep_keeps ext fs e).2.2.2.2.2.1 he).1
        ((propertyStep_keeps ext fs e).2.2.2.2.2.1 he).2) m hu v hm
    have hs := (propertyStep_sets ext fs0 v).2.2.2.2.2
    simp only [Prod.mk.injEq] at h
    exact ⟨h.1.trans hs.1, h.2.trans hs.2⟩
  · intro hm
    obtain ⟨fs0, h0, h⟩ := propertyMapToFileStat_at_key ext _
      (fun f => (f.fields.PERM, f.remotePerm))
      (fun fs e he => Prod.ext ((propertyStep_keeps ext fs e).2.2.2.2.2.2 he).1
        ((propertyStep_keeps ext fs e).2.2.2.2.2.2 he).2) m hu [] hm
    have hs := propertyStep_empty_permissions ext fs0
    simp only [Prod.mk.injEq] at h h0
    refine ⟨h.1.trans hs.2, ?_⟩
    rw [h.2, hs.1, h0.2]
    rfl

/-- Witness for C12, amended: a map with an empty `resourcetype`, the size `0`
and empty permissions. -/
theorem propertyMapToFileStat_present_witness :
    ((propertyMapToFileStat decimalExternals
        [("getcontentlength".toList, "0".toList), ("permissions".toList, []),
         ("resourcetype".toList, [])]).fields.SIZE = true ∧
      (propertyMapToFileStat decimalExternals
        [("getcontentlength".toList, "0".toList), ("permissions".toList, []),
         ("resourcetype".toList, [])]).size = decimalExternals.toLongLong "0".toList ∧
      ("0".toList = "0".toList → decimalExternals.toLongLong "0".toList = 0 →
        (propertyMapToFileStat decimalExternals
          [("getcontentlength".toList, "0".toList), ("permissions".toList, []),
           ("resourcetype".toList, [])]).size = 0)) ∧
    ((propertyMapToFileStat decimalExternals
        [("getcontentlength".toList, "0".toList), ("permissions".toList, []),
         ("resourcetype".toList, [])]).fields.PERM = true ∧
      (propertyMapToFileStat decimalExternals
        [("getcontentlength".toList, "0".toList), ("permissions".toList, []),
         ("resourcetype".toList, [])]).remotePerm = [' ']) :=
  ⟨(propertyMapToFileStat_present decimalExternals
      [("getcontentlength".toList, "0".toList), ("permissions".toList, []),
       ("resourcetype".toList, [])] "0".toList
      (by unfold QMap.UniqueKeys; decide)).2.2.1 (by decide),
   (propertyMapToFileStat_present decimalExternals
      [("getcontentlength".toList, "0".toList), ("permissions".toList, []),
       ("resourcetype".toList, [])] "0".toList
      (by unfold QMap.UniqueKeys; decide)).2.2.2.2.2.2 (by decide)⟩

/-- C13, counterexample: for the map whose `getcontentlength` is `abc`, which
is no number, the record has the size flag set, with the value 0 that the
failed conversion gives, and the tuple is stored as a record of the listing. -/
theorem propertyMapToFileStat_unparseable_size :
    (propertyMapToFileStat decimalExternals
      [("getcontentlength".toList, "abc".toList)]).fields.SIZE = true ∧
    (propertyMapToFileStat decimalExternals
      [("getcontentlength".toList, "abc".toList)]).fields.SIZE ≠ false ∧
    (propertyMapToFileStat decimalExternals
      [("getcontentlength".toList, "abc".toList)]).size = 0 ∧
    ((directoryListingIteratedSlot decimalExternals
      { _subPath := "docs".toList, requestPath := "/docs".toList, _ignoredFirst := true }
      "/docs/a.txt".toList [("getcontentlength".toList, "abc".toList)]).1._results.map
        (fun r => (r.name, r.fields.SIZE, r.size)))
      = [(some "a.txt".toList, true, 0)] := by
  decide

/-- C13, amended: for every property map (a map holds no key twice) with a
`getcontentlength` value, parseable or not, the record has the size present,
with the value `toLongLong` returns for the text (which is 0 when the
conversion fails), and the tuple is still stored as one more record of the
listing. -/
theorem directoryListingIteratedSlot_size (ext : Externals)
    (job : DiscoverySingleDirectoryJob) (file : QString) (m : QMap) (v : QString)
    (hu : m.UniqueKeys) (hm : ("getcontentlength".toList, v) ∈ m)
    (hi : job._ignoredFirst = true) :
    (propertyMapToFileStat ext m).fields.SIZE = true ∧
    (propertyMapToFileStat ext m).size = ext.toLongLong v ∧
    ∃ r, (directoryListingIteratedSlot ext job file m).1._results = job._results ++ [r] ∧
      r.fields.SIZE = true ∧ r.size = ext.toLongLong v := by
  obtain ⟨fs0, _, h⟩ := propertyMapToFileStat_at_key ext _
    (fun f => (f.fields.SIZE, f.size))
    (fun fs e he => Prod.ext ((propertyStep_keeps ext fs e).2.2.1 he).1
      ((propertyStep_keeps ext fs e).2.2.1 he).2) m hu v hm
  have hs := (propertyStep_sets ext fs0 v).2.2.1
  simp only [Prod.mk.injEq] at h
  have h1 : (propertyMapToFileStat ext m).fields.SIZE = true := h.1.trans hs.1
  have h2 : (propertyMapToFileStat ext m).size = ext.toLongLong v := h.2.trans hs.2
  refine ⟨h1, h2, { propertyMapToFileStat ext m with
      name := some (relativeName job.requestPath file) }, ?_, h1, h2⟩
  unfold directoryListingIteratedSlot
  simp [hi]

/-- Witness for C13, amended: the child `/docs/a.txt` of `/docs` with the
size text `abc`. -/
theorem directoryListingIteratedSlot_size_witness :
    (propertyMapToFileStat decimalExternals
      [("getcontentlength".toList, "abc".toList)]).fields.SIZE = true ∧
    (propertyMapToFileStat decimalExternals
      [("getcontentlength".toList, "abc".toList)]).size
        = decimalExternals.toLongLong "abc".toList ∧
    ∃ r, (directoryListingIteratedSlot decimalExternals
        { _subPath := "docs".toList, requestPath := "/docs".toList, _ignoredFirst := true }
        "/docs/a.txt".toList [("getcontentlength".toList, "abc".toList)]).1._results
          = [] ++ [r] ∧
      r.fields.SIZE = true ∧ r.size = decimalExternals.toLongLong "abc".toList :=
  directoryListingIteratedSlot_size decimalExternals
    { _subPath := "docs".toList, requestPath := "/docs".toList, _ignoredFirst := true }
    "/docs/a.txt".toList [("getcontentlength".toList, "abc".toList)] "abc".toList
    (by unfold QMap.UniqueKeys; decide) (by decide) rfl

/-- An entry under a key the code does not know leaves the record as it is. -/
theorem propertyStep_unknown_key (ext : Externals) (fs : csync_vio_file_stat_t)
    (k v : QString)
    (hk : k ∉ ["resourcetype".toList, "getlastmodified".toList, "getcontentlength".toList,
      "getetag".toList, "id".toList, "downloadURL".toList, "dDC".toList,
      "permissions".toList]) :
    propertyStep ext fs (k, v) = fs := by
  simp only [List.mem_cons, List.mem_singleton, List.not_mem_nil, or_false, not_or] at hk
  obtain ⟨h1, h2, h3, h4, h5, h6, h7, h8⟩ := hk
  unfold propertyStep
  simp only
  rw [if_neg h1, if_neg h2, if_neg h3, if_neg h4, if_neg h5, if_neg h6, if_neg h7,
    if_neg h8]

/-- C14: for every property map, every key outside `resourcetype`,
`getlastmodified`, `getcontentlength`, `getetag`, `id`, `downloadURL`, `dDC`
and `permissions`, and every value, the map extended with an entry under that
key, at whatever position of the iteration order, gives the same record as
the map without it. -/
theorem propertyMapToFileStat_unknown_key (ext : Externals) (l1 l2 : QMap)
    (k v : QString)
    (hk : k ∉ ["resourcetype".toList, "getlastmodified".toList, "getcontentlength".toList,
      "getetag".toList, "id".toList, "downloadURL".toList, "dDC".toList,
      "permissions".toList]) :
    propertyMapToFileStat ext (l1 ++ (k, v) :: l2) = propertyMapToFileStat ext (l1 ++ l2) := by
  unfold propertyMapToFileStat
  rw [List.foldl_append, List.foldl_cons, propertyStep_unknown_key ext _ k v hk,
    List.foldl_append]

/-- Witness for C14: the key `quota-used-bytes` added between `getetag` and
`resourcetype`. -/
theorem propertyMapToFileStat_unknown_key_witness :
    propertyMapToFileStat decimalExternals
      ([("getetag".toList, "e1".toList)] ++ ("quota-used-bytes".toList, "12".toList) ::
        [("resourcetype".toList, "collection".toList)])
      = propertyMapToFileStat decimalExternals
        ([("getetag".toList, "e1".toList)] ++ [("resourcetype".toList, "collection".toList)]) :=
  propertyMapToFileStat_unknown_key decimalExternals [("getetag".toList, "e1".toList)]
    [("resourcetype".toList, "collection".toList)] "quota-used-bytes".toList "12".toList
    (by decide)

/-- C15, counterexample: the child with only `getcontentlength` = `10` and
`getetag` = `e1` gets a record whose type is neither regular file nor
directory: it is left at `CSYNC_VIO_FILE_TYPE_UNKNOWN`, with the type flag
unset. -/
theorem propertyMapToFileStat_no_resourcetype :
    (propertyMapToFileStat decimalExternals
      [("getcontentlength".toList, "10".toList), ("getetag".toList, "e1".toList)]).type
        = csync_vio_file_type.CSYNC_VIO_FILE_TYPE_UNKNOWN ∧
    (propertyMapToFileStat decimalExternals
      [("getcontentlength".toList, "10".toList), ("getetag".toList, "e1".toList)]).type
        ≠ csync_vio_file_type.CSYNC_VIO_FILE_TYPE_REGULAR ∧
    (propertyMapToFileStat decimalExternals
      [("getcontentlength".toList, "10".toList), ("getetag".toList, "e1".toList)]).fields.TYPE
        = false := by
  decide

/-- C15, amended: for every property map (a map holds no key twice) with a
`resourcetype` value, the record's kind is directory when that value contains
`collection` and regular file otherwise, never anything else; for a map with
no `resourcetype` key the kind is left at the unknown type of a new record,
with the type flag unset. -/
theorem propertyMapToFileStat_type (ext : Externals) (m : QMap) (hu : m.UniqueKeys) :
    (∀ v, ("resourcetype".toList, v) ∈ m →
      ((propertyMapToFileStat ext m).type =
        if qcontains v "collection".toList then
          csync_vio_file_type.CSYNC_VIO_FILE_TYPE_DIRECTORY
        else csync_vio_file_type.CSYNC_VIO_FILE_TYPE_REGULAR) ∧
      ((propertyMapToFileStat ext m).type = csync_vio_file_type.CSYNC_VIO_FILE_TYPE_DIRECTORY ∨
       (propertyMapToFileStat ext m).type = csync_vio_file_type.CSYNC_VIO_FILE_TYPE_REGULAR)) ∧
    ((∀ e ∈ m, e.1 ≠ "resourcetype".toList) →
      (propertyMapToFileStat ext m).type = csync_vio_file_type.CSYNC_VIO_FILE_TYPE_UNKNOWN ∧
      (propertyMapToFileStat ext m).fields.TYPE = false) := by
  constructor
  · intro v hm
    obtain ⟨fs0, _, h⟩ := propertyMapToFileStat_at_key ext _
      (fun f => f.type)
      (fun fs e he => ((propertyStep_keeps ext fs e).1 he).2) m hu v hm
    have hs := (propertyStep_sets ext fs0 v).1.2
    have ht := h.trans hs
    refine ⟨ht, ?_⟩
    rw [ht]
    split
    · exact Or.inl rfl
    · exact Or.inr rfl
  · intro h
    unfold propertyMapToFileStat
    exact ⟨foldl_propertyStep_proj ext _ (fun f => f.type)
        (fun fs e he => ((propertyStep_keeps ext fs e).1 he).2) m _ h,
      foldl_propertyStep_proj ext _ (fun f => f.fields.TYPE)
        (fun fs e he => ((propertyStep_keeps ext fs e).1 he).1) m _ h⟩

/-- Witness for C15, amended: the map of a directory, with `resourcetype`
among other keys, and no key twice. -/
theorem propertyMapToFileStat_type_witness :
    (propertyMapToFileStat decimalExternals
      [("getetag".toList, "e2".toList), ("resourcetype".toList, "collection".toList)]).type
        = (if qcontains "collection".toList "collection".toList then
            csync_vio_file_type.CSYNC_VIO_FILE_TYPE_DIRECTORY
          else csync_vio_file_type.CSYNC_VIO_FILE_TYPE_REGULAR) ∧
    ((propertyMapToFileStat decimalExternals
      [("getetag".toList, "e2".toList), ("resourcetype".toList, "collection".toList)]).type
        = csync_vio_file_type.CSYNC_VIO_FILE_TYPE_DIRECTORY ∨
     (propertyMapToFileStat decimalExternals
      [("getetag".toList, "e2".toList), ("resourcetype".toList, "collection".toList)]).type
        = csync_vio_file_type.CSYNC_VIO_FILE_TYPE_REGULAR) :=
  (propertyMapToFileStat_type decimalExternals
    [("getetag".toList, "e2".toList), ("resourcetype".toList, "collection".toList)]
    (by unfold QMap.UniqueKeys; decide)).1 "collection".toList (by decide)

/-! ## Theorems: reading a filled slot -/

/-- From a position within the list, `k` calls of the read hook return the
next `k` entries, `NULL` past the end, and move only the iterator. -/
theorem readdirCalls_from (k : Nat) (d : DiscoveryDirectoryResult) (i : Nat)
    (hi : d.iterator = some i) (hle : i ≤ d.list.length) :
    readdirCalls k d =
      some ((List.range k).map (fun j => d.list.get? (i + j)),
            { d with iterator := some (min (i + k) d.list.length) }) := by
  induction k generalizing d i with
  | zero =>
    cases d
    simp only at hi hle
    subst hi
    simp [readdirCalls, Nat.min_eq_left hle]
  | succ k ih =>
    unfold readdirCalls remote_vio_readdir_hook
    rw [hi]
    simp only
    by_cases hend : i = d.list.length
    · rw [if_neg (by simpa using hend)]
      simp only
      rw [ih d i hi hle]
      simp only [Option.some.injEq, Prod.mk.injEq]
      constructor
      · rw [List.range_succ_eq_map, List.map_cons, List.map_map]
        have h0 : d.list.get? (i + 0) = none := by
          rw [List.get?_eq_none]; omega
        rw [h0]
        congr 1
        apply List.map_congr_left
        intro j _
        have h1 : d.list.get? (i + j) = none := by
          rw [List.get?_eq_none]; omega
        have h2 : d.list.get? (i + (j + 1)) = none := by
          rw [List.get?_eq_none]; omega
        simp only [Function.comp, Nat.succ_eq_add_one]
        rw [h1, h2]
      · have e1 : min (i + k) d.list.length = min (i + (k + 1)) d.list.length := by
          rw [Nat.min_eq_right (by omega), Nat.min_eq_right (by omega)]
        rw [e1]
    · rw [if_pos hend]
      have hlt : i < d.list.length := by omega
      have hget : d.list.get? i = some (d.list.get ⟨i, hlt⟩) := List.get?_eq_get hlt
      rw [hget]
      simp only
      rw [ih { d with iterator := some (i + 1) } (i + 1) rfl (by simpa using hlt)]
      simp only [Option.some.injEq, Prod.mk.injEq]
      constructor
      · rw [List.range_succ_eq_map, List.map_cons, List.map_map]
        simp only [Nat.add_zero, hget, csync_vio_file_stat_copy]
        congr 1
        apply List.map_congr_left
        intro j _
        simp only [Function.comp, Nat.succ_eq_add_one]
        congr 1
        omega
      · have e1 : i + 1 + k = i + (k + 1) := by omega
        rw [e1]

/-- C16: for every slot filled by a completed job with the entries `result`,
the first `k` calls of the read hook on its handle return, in order, the
entries of `result` (the j-th call the j-th entry) and `NULL` for every call
past the last entry; after them the entry sequence, the status, the path and
the message of the slot are as the bridge wrote them, and only the iterator
has moved, to the position `min k n`. -/
theorem readdirCalls_filled (s : DiscoveryMainThread) (result : List csync_vio_file_stat_t)
    (hs : s._currentDiscoveryDirectoryResult = true) (k : Nat) :
    ∃ d, readdirCalls k (singleDirectoryJobResultSlot s result).directoryResult =
        some ((List.range k).map (fun j => result.get? j), d) ∧
      d.list = result ∧ d.code = Errno.OK ∧
      d.path = s.directoryResult.path ∧ d.msg = s.directoryResult.msg ∧
      d.iterator = some (min k result.length) := by
  have hd : (singleDirectoryJobResultSlot s result).directoryResult =
      { s.directoryResult with list := result, code := Errno.OK, iterator := some 0 } := by
    unfold singleDirectoryJobResultSlot
    simp [hs]
  rw [hd, readdirCalls_from k _ 0 rfl (Nat.zero_le _)]
  refine ⟨{ s.directoryResult with
      list := result, code := Errno.OK, iterator := some (min k result.length) },
    ?_, rfl, rfl, rfl, rfl, rfl⟩
  simp

/-- Witness for C16: a slot filled with two entries, read three times. -/
theorem readdirCalls_filled_witness :
    ∃ d, readdirCalls 3 (singleDirectoryJobResultSlot
        (doOpendirSlot none "/docs".toList newDirectoryResult)
        [{ name := some "a.txt".toList }, { name := some "sub".toList }]).directoryResult =
        some ([some { name := some "a.txt".toList }, some { name := some "sub".toList }, none],
          d) ∧
      d.list = [{ name := some "a.txt".toList }, { name := some "sub".toList }] ∧
      d.code = Errno.OK ∧
      d.path = (doOpendirSlot none "/docs".toList newDirectoryResult).directoryResult.path ∧
      d.msg = (doOpendirSlot none "/docs".toList newDirectoryResult).directoryResult.msg ∧
      d.iterator = some 2 :=
  readdirCalls_filled (doOpendirSlot none "/docs".toList newDirectoryResult)
    [{ name := some "a.txt".toList }, { name := some "sub".toList }] rfl 3

/-! ## Theorems: terminal events, abort and root permissions -/

/-- C18, the code at the failing input: on the pending slot of an open of
`/docs`, `abort()` takes the mutex and writes the slot, and the job's
completion with an entry arrives afterwards. The open hook returns no handle
and the slot holds no entries, but the error it sets is `EIO`, the very code
of a reply with a network error and of the classifier's default (500): there
is no code of its own for a cancellation. -/
theorem opendir_after_abort :
    opendirReturn (deliverTerminals (doOpendirSlot none "/docs".toList newDirectoryResult)
        [TerminalEvent.abortCalled true,
         TerminalEvent.jobCompleted [{ name := some "a.txt".toList }]]).directoryResult
      = (none, some Errno.EIO) ∧
    (deliverTerminals (doOpendirSlot none "/docs".toList newDirectoryResult)
        [TerminalEvent.abortCalled true,
         TerminalEvent.jobCompleted [{ name := some "a.txt".toList }]]).directoryResult.list
      = [] ∧
    Errno.EIO = get_errno_from_http_errcode 500 ∧
    Errno.EIO = (lsJobFinishedWithErrorSlot ⟨1, 0, [], []⟩).1 := by
  decide

/-- A signal of the job leaves root permissions that are set as they are. -/
theorem deliverSignal_root_perms (s : DiscoveryMainThread) (sig : JobSignal)
    (v : QString) (h : s.root_perms = some v) :
    (deliverSignal s sig).root_perms = some v := by
  cases sig with
  | firstDirectoryPermissions p =>
    simp only [deliverSignal, singleDirectoryJobFirstDirectoryPermissionsSlot]
    split
    · rw [if_neg (by rw [h]; exact Option.some_ne_none v)]
      exact h
    · exact h
  | firstDirectoryEtag e => exact h
  | finishedWithResult result =>
    simp only [deliverSignal, singleDirectoryJobResultSlot]
    split
    · split <;> exact h
    · exact h
  | finishedWithError c msg =>
    simp only [deliverSignal, singleDirectoryJobFinishedWithErrorSlot]
    split
    · split <;> exact h
    · exact h

/-- A sequence of signals leaves root permissions that are set as they are. -/
theorem foldl_deliverSignal_root_perms (sigs : List JobSignal) (s : DiscoveryMainThread)
    (v : QString) (h : s.root_perms = some v) :
    (sigs.foldl deliverSignal s).root_perms = some v := by
  induction sigs generalizing s with
  | nil => exact h
  | cons sig rest ih =>
    rw [List.foldl_cons]
    exact ih _ (deliverSignal_root_perms s sig v h)

/-- C20: for every sequence of directory listings of a discovery pass, once
the root permissions hold a value after some of the listings, they hold the
same value after every further listing, whatever permissions the self-entries
of those listings carry: the value is written at most once. -/
theorem deliverListings_root_perms (ext : Externals) (s : DiscoveryMainThread)
    (before later : List (QString × List (QString × QMap))) (v : QString)
    (h : (deliverListings ext s before).root_perms = some v) :
    (deliverListings ext s (before ++ later)).root_perms = some v := by
  unfold deliverListings at h ⊢
  rw [List.foldl_append]
  generalize List.foldl (deliverListing ext) s before = s1 at h
  induction later generalizing s1 with
  | nil => exact h
  | cons l rest ih =>
    rw [List.foldl_cons]
    apply ih
    unfold deliverListing
    exact foldl_deliverSignal_root_perms _ s1 v h

/-- Witness for C20: the listing of the root, whose self-entry has the
permissions `RDNVCK`, followed by the listing of `/docs`, whose self-entry has
the permissions `S`: the root permissions stay `RDNVCK`. -/
theorem deliverListings_root_perms_witness :
    (deliverListings decimalExternals (doOpendirSlot none [] newDirectoryResult)
      [("/".toList, [("/".toList, [("permissions".toList, "RDNVCK".toList)])])]).root_perms
        = some "RDNVCK".toList ∧
    (deliverListings decimalExternals (doOpendirSlot none [] newDirectoryResult)
      ([("/".toList, [("/".toList, [("permissions".toList, "RDNVCK".toList)])])] ++
       [("/docs".toList, [("/docs/".toList, [("permissions".toList, "S".toList)]),
          ("/docs/a.txt".toList, [("getetag".toList, "e1".toList)])])])).root_perms
        = some "RDNVCK".toList :=
  ⟨by decide,
   deliverListings_root_perms decimalExternals (doOpendirSlot none [] newDirectoryResult)
    [("/".toList, [("/".toList, [("permissions".toList, "RDNVCK".toList)])])]
    [("/docs".toList, [("/docs/".toList, [("permissions".toList, "S".toList)]),
      ("/docs/a.txt".toList, [("getetag".toList, "e1".toList)])])]
    "RDNVCK".toList (by decide)⟩

/-! ## Theorems: the black list lookup on sorted prefix-free lists -/

/-- A call of the callback on a running timer, less than 200 ms after its
start, emits nothing and leaves the timer as it is. -/
theorem update_job_update_callback_early (decode : QString → QString) (r : Nat)
    (hr : 0 < r) (start now : Nat) (isLocal : Bool) (dirUrl : QString)
    (h : now < start + 200 * r) :
    update_job_update_callback decode r (some start) now isLocal dirUrl
      = (some start, none) := by
  unfold update_job_update_callback
  have hlt : (now - start) / r < 200 := by
    rw [Nat.div_lt_iff_lt_mul hr]
    omega
  simp only [hlt, if_true]

/-- A call of the callback on a running timer emits only when at least 200 ms
have passed since its start, and then restarts the timer at the call. -/
theorem update_job_update_callback_emits (decode : QString → QString) (r : Nat)
    (hr : 0 < r) (start now : Nat) (isLocal : Bool) (dirUrl : QString)
    (timer : Option Nat) (n : Bool × QString)
    (h : update_job_update_callback decode r (some start) now isLocal dirUrl
      = (timer, some n)) :
    start + 200 * r ≤ now ∧ timer = some now := by
  unfold update_job_update_callback at h
  simp only at h
  by_cases hlt : (now - start) / r < 200
  · rw [if_pos hlt] at h
    simp at h
  · rw [if_neg hlt] at h
    simp only [Prod.mk.injEq] at h
    have h200 : 200 * r ≤ now - start := by
      have := Nat.le_of_not_lt hlt
      exact (Nat.le_div_iff_mul_le hr).mp this
    have hpos : 0 < 200 * r := Nat.mul_pos (by decide) hr
    exact ⟨by omega, h.1.symm⟩

/-- From a running timer, the notifications of a sequence of calls are emitted
at least 200 ms after the start of the timer and after each other, and the
timer ends at the last emission, or at its start when there is none. -/
theorem progressCalls_running (decode : QString → QString) (r : Nat) (hr : 0 < r)
    (calls : List (Nat × Bool × QString)) (start : Nat) :
    List.Chain (fun a b => a + 200 * r ≤ b) start
      ((progressCalls decode r (some start) calls).2.map (fun e => e.1)) ∧
    (progressCalls decode r (some start) calls).1 =
      some (((progressCalls decode r (some start) calls).2.map
        (fun e => e.1)).getLast?.getD start) := by
  induction calls generalizing start with
  | nil => exact ⟨List.Chain.nil, rfl⟩
  | cons c cs ih =>
    unfold progressCalls
    cases hcb : update_job_update_callback decode r (some start) c.1 c.2.1 c.2.2 with
    | mk timer out =>
      cases out with
      | none =>
        have hearly : timer = some start := by
          unfold update_job_update_callback at hcb
          simp only at hcb
          by_cases hlt : (c.1 - start) / r < 200
          · rw [if_pos hlt] at hcb
            simp only [Prod.mk.injEq] at hcb
            exact hcb.1.symm
          · rw [if_neg hlt] at hcb
            simp at hcb
        subst hearly
        exact ih start
      | some n =>
        obtain ⟨hgap, ht⟩ := update_job_update_callback_emits decode r hr start c.1 c.2.1
          c.2.2 timer n hcb
        subst ht
        simp only [List.map_cons]
        refine ⟨List.Chain.cons hgap (ih c.1).1, ?_⟩
        rw [(ih c.1).2, List.getLast?_cons]
        rfl

/-- The way `progressCalls` handles the first call of a sequence. -/
theorem progressCalls_cons (decode : QString → QString) (r : Nat) (timer : Option Nat)
    (c : Nat × Bool × QString) (cs : List (Nat × Bool × QString)) :
    progressCalls decode r timer (c :: cs) =
      match update_job_update_callback decode r timer c.1 c.2.1 c.2.2 with
      | (timer1, none) => progressCalls decode r timer1 cs
      | (timer1, some n) =>
        ((progressCalls decode r timer1 cs).1,
          (c.1, n) :: (progressCalls decode r timer1 cs).2) := by
  rfl

/-- The calls of a sequence are handled one after the other: the notifications
of two parts follow each other, the second part starting from the timer the
first part leaves. -/
theorem progressCalls_append (decode : QString → QString) (r : Nat)
    (xs ys : List (Nat × Bool × QString)) (timer : Option Nat) :
    progressCalls decode r timer (xs ++ ys) =
      ((progressCalls decode r (progressCalls decode r timer xs).1 ys).1,
       (progressCalls decode r timer xs).2 ++
         (progressCalls decode r (progressCalls decode r timer xs).1 ys).2) := by
  induction xs generalizing timer with
  | nil => rfl
  | cons c cs ih =>
    have hL := progressCalls_cons decode r timer c (cs ++ ys)
    have hR := progressCalls_cons decode r timer c cs
    cases hcb : update_job_update_callback decode r timer c.1 c.2.1 c.2.2 with
    | mk timer1 out =>
      rw [hcb] at hL hR
      cases out with
      | none =>
        simp only at hL hR
        rw [List.cons_append, hL, hR]
        exact ih timer1
      | some n =>
        simp only at hL hR
        rw [List.cons_append, hL, hR, ih timer1]
        rfl

/-- The first call of a sequence, on an invalid timer, emits and starts the
timer. -/
theorem progressCalls_invalid_cons (decode : QString → QString) (r : Nat)
    (c : Nat × Bool × QString) (cs : List (Nat × Bool × QString)) :
    progressCalls decode r none (c :: cs) =
      ((progressCalls decode r (some c.1) cs).1,
       (c.1, c.2.1, lastSection (decode c.2.2)) :: (progressCalls decode r (some c.1) cs).2) := by
  rfl

/-- C21: for every sequence of calls of `update_job_update_callback`, starting
from an invalidated timer (the calls need not even come at non-decreasing
clock readings): the first call emits a notification; any two consecutive
emitted notifications are at least 200 ms apart; and after any calls, the
timer holds the time of the last emitted notification, and a next call that
comes less than 200 ms after it emits nothing and leaves the timer as it is. -/
theorem progressCalls_throttled (decode : QString → QString) (r : Nat) (hr : 0 < r)
    (calls : List (Nat × Bool × QString)) :
    (∀ c rest, calls = c :: rest →
      (progressCalls decode r none calls).2.head?
        = some (c.1, c.2.1, lastSection (decode c.2.2))) ∧
    List.Chain' (fun a b => a + 200 * r ≤ b)
      ((progressCalls decode r none calls).2.map (fun e => e.1)) ∧
    (∀ pre c post, calls = pre ++ c :: post → pre ≠ [] →
      ∃ last, ((progressCalls decode r none pre).2.map (fun e => e.1)).getLast? = some last ∧
        (progressCalls decode r none pre).1 = some last ∧
        (c.1 < last + 200 * r →
          progressCalls decode r none (pre ++ [c]) = progressCalls decode r none pre)) := by
  refine ⟨?_, ?_, ?_⟩
  · intro c rest hc
    subst hc
    rw [progressCalls_invalid_cons]
    rfl
  · cases calls with
    | nil => exact List.chain'_nil
    | cons c cs =>
      rw [progressCalls_invalid_cons]
      exact (progressCalls_running decode r hr cs c.1).1
  · intro pre c post _ hpre
    cases pre with
    | nil => exact absurd rfl hpre
    | cons c0 cs =>
      have hrun := progressCalls_running decode r hr cs c0.1
      refine ⟨((progressCalls decode r (some c0.1) cs).2.map
        (fun e => e.1)).getLast?.getD c0.1, ?_, ?_, ?_⟩
      · rw [progressCalls_invalid_cons]
        simp only [List.map_cons]
        rw [List.getLast?_cons]
      · rw [progressCalls_invalid_cons]
        exact hrun.2
      · intro hlt
        have hstate : (progressCalls decode r none (c0 :: cs)).1 =
            some (((progressCalls decode r (some c0.1) cs).2.map
              (fun e => e.1)).getLast?.getD c0.1) := by
          rw [progressCalls_invalid_cons]
          exact hrun.2
        rw [progressCalls_append, hstate]
        have hone : progressCalls decode r
            (some (((progressCalls decode r (some c0.1) cs).2.map
              (fun e => e.1)).getLast?.getD c0.1)) [c] =
            (some (((progressCalls decode r (some c0.1) cs).2.map
              (fun e => e.1)).getLast?.getD c0.1), []) := by
          rw [progressCalls_cons,
            update_job_update_callback_early decode r hr _ c.1 c.2.1 c.2.2 hlt]
          rfl
        rw [hone, List.append_nil, ← hstate]

/-- Witness for C21: with a clock in milliseconds, calls at 0, 100, 250 and
300 emit at 0 and at 250 only. -/
theorem progressCalls_throttled_witness :
    0 < 1 ∧
    (progressCalls id 1 none
      [(0, false, "a/b".toList), (100, false, "a/c".toList), (250, true, "a/d".toList),
       (300, true, "e".toList)]).2 = [(0, false, "b".toList), (250, true, "d".toList)] ∧
    List.Chain' (fun a b => a + 200 * 1 ≤ b)
      ((progressCalls id 1 none
        [(0, false, "a/b".toList), (100, false, "a/c".toList), (250, true, "a/d".toList),
         (300, true, "e".toList)]).2.map (fun e => e.1)) :=
  ⟨by decide, by decide,
   (progressCalls_throttled id 1 (by decide)
    [(0, false, "a/b".toList), (100, false, "a/c".toList), (250, true, "a/d".toList),
     (300, true, "e".toList)]).2.1⟩

end OCC
